import Mathlib

/-!
Verification development for the spica VPC-diagram renderer.

The definitions below are a shallow embedding of the Python sources
`src/vpc.py`, `src/service.py` and `src/outputs/graphviz.py`:

* Python dicts become association lists (`List (key × value)`), sets become
  lists handled with set semantics (`setAdd`, `List.dedup`), and
  `defaultdict(list)` reads become `ddGet` (which records the
  auto-vivification side effect) or `subnetsGet` (the pure value).
* Python string/list comparisons (used by `sorted`) are embedded as
  `pyStrLt`/`pyStrLe`/`pyPairLe`/`pyListLe` (lexicographic by code point /
  element).  `sorted` itself is a stable sort; it is embedded with
  `List.insertionSort`, which is also stable, so the two agree elementwise.
* Fallible operations (attribute/key errors, `None` comparisons raising
  `TypeError`) are embedded in `Except Unit`.
* A `ServiceInstance` carries the derived attributes that the renderer
  reads (`id`, `label`, `name`, `type_info`, `cost_per_month`, and for
  subnets `cidr`/`subnet_type`); in the source these are `@property`
  accessors over the raw provider dict, which the renderer treats as
  opaque inputs.  `cidr`/`subnet_type` are `Option`s: `none` models a
  resource on which the subnet-only accessor would raise.
-/

/-! ## Python comparison primitives -/

/-- Python `<` on lists, lexicographic by element (`list.__lt__`). -/
def pyLexLt {α : Type} [LinearOrder α] : List α → List α → Bool
  | _, [] => false
  | [], _ :: _ => true
  | a :: as, b :: bs =>
      if a < b then true
      else if b < a then false
      else pyLexLt as bs

/-- Python `<` on strings: lexicographic comparison of code points. -/
def pyStrLt (a b : String) : Bool := pyLexLt a.data b.data

/-- Python `<=` on strings (total order: `a <= b` iff not `b < a`). -/
def pyStrLe (a b : String) : Bool := !pyStrLt b a

/-- Python `<=` on pairs of strings (tuple comparison). -/
def pyPairLe (a b : String × String) : Bool :=
  pyStrLt a.1 b.1 || (a.1 == b.1 && pyStrLe a.2 b.2)

/-- Python `<=` on integer lists (used for CIDR sort keys). -/
def pyListLe (a b : List Int) : Bool := !pyLexLt b a

/-- Python `str.split` with a one-character separator, on raw characters. -/
def splitChar (sep : Char) : List Char → List (List Char)
  | [] => [[]]
  | a :: as =>
      let r := splitChar sep as
      if a = sep then [] :: r
      else
        match r with
        | [] => [[a]]
        | h :: t => (a :: h) :: t

/-- Digit-string value, `none` if empty or not all digits. -/
def digitsVal (l : List Char) : Option Nat :=
  if l = [] then none
  else if l.all (fun c => c.isDigit) then
    some (l.foldl (fun acc c => acc * 10 + (c.toNat - 48)) 0)
  else none

/-- Python `int(s)`: optional sign followed by digits, else a `ValueError`
(modelled as `none`). -/
def pyIntOfChars : List Char → Option Int
  | '-' :: rest => (digitsVal rest).map (fun n => -(n : Int))
  | '+' :: rest => (digitsVal rest).map (fun n => (n : Int))
  | l => (digitsVal l).map (fun n => (n : Int))

/-- Python `str.join` (used for joining rendered attributes). -/
def joinSep (sep : String) : List String → String
  | [] => ""
  | [a] => a
  | a :: rest => a ++ sep ++ joinSep sep rest

/-- `List.mapM` specialised to `Except Unit` by structural recursion, the
embedding of a Python list comprehension whose body may raise. -/
def mapME {α β : Type} (f : α → Except Unit β) : List α → Except Unit (List β)
  | [] => Except.ok []
  | a :: as => do
      let b ← f a
      let bs ← mapME f as
      Except.ok (b :: bs)

/-! ## `src/service.py`: the resource model -/

/-- One discovered resource, with the derived attributes read by the
renderer (see the header comment for the modelling of `@property`
accessors over the provider dict). -/
structure ServiceInstance where
  service_name : String
  instance_name : String
  id : String
  name : String
  label : String
  type_info : String
  cost_per_month : ℚ
  cidr : Option String
  subnet_type : Option String
deriving DecidableEq

/-! ## `src/vpc.py`: the graph aggregate -/

/-- `AvailabilityZone` dataclass: ids of services and subnets seen in the
zone. -/
structure AvailabilityZone where
  service_ids : List String
  subnet_ids : List String
deriving DecidableEq

/-- The `VPC` aggregate: resource map, relation set (a Python `set`,
represented as a duplicate-free list built by `setAdd`), zone map and
subnet-membership map (both `defaultdict`s, represented as association
lists). -/
structure VPC where
  id : String
  name : String
  cidr_block : String
  services : List (String × ServiceInstance)
  relations : List (String × String)
  azs : List (String × AvailabilityZone)
  subnets : List (String × List String)
deriving DecidableEq

/-- `VPC.__getitem__`: `self._services.get(key, None)`. -/
def vpcGet (vpc : VPC) (key : String) : Option ServiceInstance :=
  (vpc.services.find? (fun p => p.1 == key)).map (fun p => p.2)

/-- `VPC.__contains__`: `key in self._services`. -/
def vpcContains (vpc : VPC) (key : String) : Bool :=
  vpc.services.any (fun p => p.1 == key)

/-- Python `set.add` on the relation list (no duplicate is stored). -/
def setAdd (relations : List (String × String)) (r : String × String) :
    List (String × String) :=
  if relations.contains r then relations else relations ++ [r]

/-- `VPC._add_relation`: drops the pair when either endpoint `is None`,
otherwise adds `Relation(src, trg)` to the set. -/
def addRelation (relations : List (String × String)) (src trg : Option String) :
    List (String × String) :=
  match src, trg with
  | some s, some t => setAdd relations (s, t)
  | _, _ => relations

/-- The value of `vpc.subnets[k]` (a `defaultdict(list)` read: `[]` when the
key is absent).  The state effect of that read is `ddGet` below. -/
def subnetsGet (vpc : VPC) (key : String) : List String :=
  ((vpc.subnets.find? (fun p => p.1 == key)).map (fun p => p.2)).getD []

/-- `defaultdict(list)` indexing: returns the stored list and the updated
map — reading a missing key inserts an empty entry (auto-vivification). -/
def ddGet (m : List (String × List String)) (k : String) :
    List String × List (String × List String) :=
  match m.find? (fun p => p.1 == k) with
  | some p => (p.2, m)
  | none => ([], m ++ [(k, [])])

/-- `defaultdict(list)` append (`ranks[k].append v`). -/
def ddAppend (m : List (String × List String)) (k v : String) :
    List (String × List String) :=
  if m.any (fun p => p.1 == k) then
    m.map (fun p => if p.1 == k then (p.1, p.2 ++ [v]) else p)
  else m ++ [(k, [v])]

/-! ## `src/outputs/graphviz.py`: constants -/

def TOP_SVC : List String :=
  ["ASG", "ELBv1", "ELBv2", "EPT-GWLB", "VPGW", "TG", "EKS", "Lambda", "EPT-I"]

def SUBNET_SVC : List String := ["EC2", "ENI", "NAT"]

def BOTTOM_SVC : List String := ["RDS"]

def NW_SVC : List String := ["ACL", "EPT-GW", "IGW", "RTB", "PEER", "SG"]

def LEVELS : List (List String) :=
  [["R53"],
   ["HZ"],
   ["VPC"],
   ["VPGW"],
   ["EPT-GWLB"],
   ["ACL"],
   ["ASG"],
   ["ELBv1", "ELBv2"],
   ["TG"],
   ["EKS"],
   ["Lambda"],
   ["EPT-I"],
   ["SUBN"],
   ["EC2", "NAT"],
   ["ENI"],
   ["RDS"],
   ["RTB"],
   ["SG"],
   ["EPT-GW", "PEER", "IGW"]]

def NETWORK : List String :=
  ["ACL", "ELBv1", "ELBv2", "ENI", "EPT-I", "EPT-GWLB", "HZ", "IGW", "NAT",
   "PEER", "RTB", "SG", "TG", "VPGW"]

def STORAGE : List String := ["EPT-GW", "RDS"]

def COMPUTE : List String := ["ASG", "EC2", "Lambda", "EKS"]

/-! ## `graphviz.py`: helper methods -/

/-- `cidr_sort`: split the CIDR at `/`, then the address at `.`, and parse
every octet with `int`.  A resource without the `cidr` attribute raises
(`Except.error`), as does a non-numeric octet. -/
def cidr_sort (svc : ServiceInstance) : Except Unit (List Int) := do
  let c ← match svc.cidr with
    | some c => Except.ok c
    | none => Except.error ()
  let ip := (splitChar '/' c.data).headI
  mapME
    (fun part =>
      match pyIntOfChars part with
      | some n => Except.ok n
      | none => Except.error ())
    (splitChar '.' ip)

/-- `level`: index of the first level whose type list contains the name;
`None` (and a log line) when the type is unclassified. -/
def level (service_name : String) : Option Nat :=
  LEVELS.findIdx? (fun types => types.contains service_name)

/-- Python `a > b` on `level` results: raises `TypeError` when either side
is `None`. -/
def pyGt (a b : Option Nat) : Except Unit Bool :=
  match a, b with
  | some x, some y => Except.ok (y < x)
  | _, _ => Except.error ()

/-- Python `a < b` on `level` results: raises `TypeError` when either side
is `None`. -/
def pyLt (a b : Option Nat) : Except Unit Bool :=
  match a, b with
  | some x, some y => Except.ok (x < y)
  | _, _ => Except.error ()

/-- `graphviz_color`. -/
def graphviz_color (service : String) : String :=
  if NETWORK.contains service then "purple3"
  else if STORAGE.contains service then "blue"
  else "orange"

/-- `graphviz_id`: space, hyphen and slash become underscores; periods are
deleted (`REPLACE_TABLE`). -/
def graphviz_id (s : String) : String :=
  String.mk (s.data.filterMap (fun c =>
    if c = ' ' ∨ c = '-' ∨ c = '/' then some '_'
    else if c = '.' then none
    else some c))

/-- The icon table of `graphviz_icon` (the `instance_type` parameter of the
source is unused). -/
def iconMap : List (String × String) :=
  [("ACL", "ACL"), ("ASG", "ASG"), ("EC2", "EC2"), ("EKS", "EKS"),
   ("ELBv1", "LB"), ("ELBv2", "ALB"), ("ENI", "ENI"), ("EPT-I", "EPT-I"),
   ("EPT-GW", "EPT-GW"), ("EPT-GWLB", "EPT-GWLB"), ("HZ", "HZ"),
   ("IGW", "IGW"), ("Lambda", "Lambda"), ("NAT", "NAT"),
   ("PEER", "vpc-peering"), ("RDS", "RDS"), ("RTB", "RouteTable"),
   ("SG", "SG"), ("TG", "TG"), ("VPGW", "VPNGW")]

/-- `graphviz_icon`: icon path when the type is mapped, else `None`. -/
def graphviz_icon (service : String) : Option String :=
  (iconMap.find? (fun p => p.1 == service)).map
    (fun p => "../icons/" ++ p.2 ++ ".png")

/-- `" ".join(f'{k}="{v}"' for ...)` over an attribute dict (values are
stored already rendered, as Python's f-string would print them). -/
def renderAttrs (attrs : List (String × String)) : String :=
  joinSep " " (attrs.map (fun p => p.1 ++ "=\"" ++ p.2 ++ "\""))

/-- Python dict assignment `d[k] = v`: update in place when the key exists
(keeping its position), else append. -/
def dictSet (d : List (String × String)) (k v : String) :
    List (String × String) :=
  if d.any (fun p => p.1 == k) then
    d.map (fun p => if p.1 == k then (k, v) else p)
  else d ++ [(k, v)]

/-- `node(svc)`: label attribute plus an image attribute when an icon is
mapped. -/
def node (svc : ServiceInstance) : String :=
  let attrs := [("label", svc.label)]
  let attrs :=
    match graphviz_icon svc.service_name with
    | some image => attrs ++ [("image", image)]
    | none => attrs
  graphviz_id svc.id ++ " [" ++ renderAttrs attrs ++ "]"

/-- The attribute dict built by `edge(source, target, vpc)`:
`none` when the source is a subnet (the edge is suppressed), `Except.error`
when a `level` comparison hits an unclassified type (Python `TypeError`).
The final `elif target.service_name == "RTB"` branch of the source contains
only the annotated expression statement `attrs["color"]: "mediumpurple"`,
which performs no assignment, so it has no effect on the dict. -/
def edgeAttrs (source target : ServiceInstance) (vpc : VPC) :
    Except Unit (Option (List (String × String))) :=
  if source.service_name == "SUBN" then Except.ok none
  else do
    let attrs := [("color", graphviz_color source.service_name)]
    let gt ← pyGt (level source.service_name) (level target.service_name)
    let attrs :=
      if gt then dictSet (dictSet attrs "constraint" "False") "style" "invis"
      else if decide (0 < source.cost_per_month) && (target.service_name == "SG") then
        dictSet (dictSet attrs "constraint" "False") "style" "invis"
      else attrs
    let attrs :=
      if source.service_name == "ENI" && target.service_name == "RTB" then
        if vpc.relations.contains (source.id, target.id) then attrs
        else dictSet (dictSet attrs "weight" "10") "style" "invis"
      else attrs
    Except.ok (some attrs)

/-- `edge(source, target, vpc)`: the rendered edge statement. -/
def edge (source target : ServiceInstance) (vpc : VPC) :
    Except Unit (Option String) := do
  let r ← edgeAttrs source target vpc
  match r with
  | none => Except.ok none
  | some attrs =>
      Except.ok (some (graphviz_id source.id ++ " -> " ++ graphviz_id target.id
        ++ " [" ++ renderAttrs attrs ++ "]"))

/-! ## `to_graphviz`: connectivity and containment -/

/-- Membership in the `connected` set: endpoints of any relation, plus every
storage/compute service and every hosted zone. -/
def connectedB (vpc : VPC) (x : String) : Bool :=
  vpc.relations.any (fun r => r.1 == x || r.2 == x) ||
  vpc.services.any (fun p =>
    ((STORAGE.contains p.2.service_name || COMPUTE.contains p.2.service_name) ||
      p.2.service_name == "HZ") && p.2.id == x)

/-- The `sn_tally` counter: occurrences of `x` across the membership lists
of every subnet listed in every zone. -/
def snTally (vpc : VPC) (x : String) : Nat :=
  (vpc.azs.map (fun kv =>
    (kv.2.subnet_ids.map (fun k => (subnetsGet vpc k).count x)).sum)).sum

/-- The `az_tally` counter: occurrences of `x` across every zone's
`service_ids`. -/
def azTally (vpc : VPC) (x : String) : Nat :=
  (vpc.azs.map (fun kv => kv.2.service_ids.count x)).sum

/-- `x in single_subnet`. -/
def single_subnetB (vpc : VPC) (x : String) : Bool := snTally vpc x == 1

/-- `x in single_az`. -/
def single_azB (vpc : VPC) (x : String) : Bool :=
  azTally vpc x == 1 && !single_subnetB vpc x

/-- `x in contained` (`single_subnet.union(single_az)`). -/
def containedB (vpc : VPC) (x : String) : Bool :=
  single_subnetB vpc x || single_azB vpc x

/-! ## `to_graphviz`: routing services to areas -/

def start_vpc : Option Nat := level "VPC"

def end_top : Option Nat := level "SUBN"

def end_subnet : Option Nat := level "ENI"

/-- The four shared areas of the main routing chain. -/
inductive Region where
  | route53
  | top
  | bottom
  | nw
deriving DecidableEq, BEq

/-- The `if/elif` chain of the main service-routing loop, for one
service. -/
def routeMain (vpc : VPC) (v : ServiceInstance) : Except Unit (Option Region) := do
  let l := level v.service_name
  let display_outside_sn := connectedB vpc v.id && !containedB vpc v.id
  if ← pyLt l start_vpc then Except.ok (some Region.route53)
  else if (← pyLt l end_top) && !containedB vpc v.id then Except.ok (some Region.top)
  else if BOTTOM_SVC.contains v.service_name && display_outside_sn then
    Except.ok (some Region.bottom)
  else if NW_SVC.contains v.service_name && display_outside_sn then
    Except.ok (some Region.nw)
  else Except.ok none

/-- The node statements collected for one shared region (the loop appends
`node(v)` for each service routed there, in service-map order). -/
def regionList (vpc : VPC) (r : Region) : Except Unit (List String) := do
  let opts ← mapME
    (fun p => do
      let rr ← routeMain vpc p.2
      Except.ok (if rr == some r then some (node p.2) else none))
    vpc.services
  Except.ok (opts.filterMap id)

/-- The `ranks` defaultdict: connected non-subnet ids grouped by type, keys
in first-insertion order. -/
def ranksOf (vpc : VPC) : List (String × List String) :=
  vpc.services.foldl
    (fun acc p =>
      if p.2.service_name != "SUBN" && connectedB vpc p.2.id then
        ddAppend acc p.2.service_name p.2.id
      else acc)
    []

/-- The `enis` list: ids of connected network interfaces, in service-map
order. -/
def enisOf (vpc : VPC) : List String :=
  vpc.services.filterMap (fun p =>
    if p.2.service_name == "ENI" && connectedB vpc p.2.id then some p.2.id
    else none)

/-- The `rtbs` list: ids of connected route tables, in service-map order. -/
def rtbsOf (vpc : VPC) : List String :=
  vpc.services.filterMap (fun p =>
    if p.2.service_name == "RTB" && connectedB vpc p.2.id then some p.2.id
    else none)

/-! ## `to_graphviz`: zone and subnet clusters -/

/-- `GVSN` dataclass. -/
structure GVSN where
  cluster_id : String
  id : String
  label : String
  services : List String
deriving DecidableEq

/-- `GVAZ` dataclass. -/
structure GVAZ where
  cluster_id : String
  label : String
  subnets : List GVSN
  top_services : List String
  bottom_services : List String
deriving DecidableEq

/-- Zone-local top services: `l < end_top and display_in_az`. -/
def azTopList (vpc : VPC) (az : AvailabilityZone) : Except Unit (List String) := do
  let opts ← mapME
    (fun p => do
      let b ← pyLt (level p.2.service_name) end_top
      Except.ok (if b && (az.service_ids.contains p.2.id && single_azB vpc p.2.id)
        then some (node p.2) else none))
    vpc.services
  Except.ok (opts.filterMap id)

/-- Zone-local bottom services: `l > end_subnet and display_in_az`. -/
def azBottomList (vpc : VPC) (az : AvailabilityZone) : Except Unit (List String) := do
  let opts ← mapME
    (fun p => do
      let b ← pyGt (level p.2.service_name) end_subnet
      Except.ok (if b && (az.service_ids.contains p.2.id && single_azB vpc p.2.id)
        then some (node p.2) else none))
    vpc.services
  Except.ok (opts.filterMap id)

/-- The members drawn inside a subnet cluster:
`[vpc[x] for x in vpc.subnets[sn] if x in connected and x in single_subnet]`;
a filtered id absent from the resource map makes the later sort raise. -/
def insideOf (vpc : VPC) (snId : String) : Except Unit (List ServiceInstance) :=
  mapME
    (fun x =>
      match vpcGet vpc x with
      | some s => Except.ok s
      | none => Except.error ())
    ((subnetsGet vpc snId).filter
      (fun x => connectedB vpc x && single_subnetB vpc x))

/-- Sort key order for subnet members: the `(service_name, instance_name)`
tuple. -/
def SvcLeP : ServiceInstance → ServiceInstance → Prop := fun a b =>
  pyPairLe (a.service_name, a.instance_name) (b.service_name, b.instance_name) = true

instance : DecidableRel SvcLeP := fun _ _ => Bool.decEq _ _

/-- Order on decorated subnets: Python list comparison of `cidr_sort`
keys. -/
def KeyLeP : (List Int × ServiceInstance) → (List Int × ServiceInstance) → Prop :=
  fun a b => pyListLe a.1 b.1 = true

instance : DecidableRel KeyLeP := fun _ _ => Bool.decEq _ _

/-- `sorted(subnet_instances, key=cidr_sort)`: decorate with the key (which
may raise), then stable-sort by key. -/
def sortSubnets (l : List ServiceInstance) : Except Unit (List ServiceInstance) := do
  let decorated ← mapME
    (fun s => do
      let k ← cidr_sort s
      Except.ok (k, s))
    l
  Except.ok ((List.insertionSort KeyLeP decorated).map (fun p => p.2))

/-- The subnet cluster label
`f"{subnet.subnet_type}\\n{subnet.cidr}\\n{subnet.name}\\n{subnet.instance_name}"`. -/
def subnetLabel (subnet : ServiceInstance) : Except Unit String := do
  let st ← match subnet.subnet_type with
    | some s => Except.ok s
    | none => Except.error ()
  let c ← match subnet.cidr with
    | some s => Except.ok s
    | none => Except.error ()
  Except.ok (st ++ "\\n" ++ c ++ "\\n" ++ subnet.name ++ "\\n" ++ subnet.instance_name)

/-- Build the `GVSN` list of one zone, threading the global `sn_i`
counter. -/
def buildSnsGo (vpc : VPC) : List ServiceInstance → Nat → Except Unit (List GVSN × Nat)
  | [], sn_i => Except.ok ([], sn_i)
  | subnet :: rest, sn_i => do
      let label ← subnetLabel subnet
      let inside ← insideOf vpc subnet.id
      let svcs := (List.insertionSort SvcLeP inside).map node
      let (tail, snEnd) ← buildSnsGo vpc rest (sn_i + 1)
      Except.ok (⟨toString (1000 + sn_i * 10), subnet.id, label, svcs⟩ :: tail, snEnd)

/-- Zone iteration order: `sorted(vpc.azs.items())` compares the key tuples;
dict keys are unique so only the zone names are compared. -/
def AzLeP : (String × AvailabilityZone) → (String × AvailabilityZone) → Prop :=
  fun a b => pyStrLe a.1 b.1 = true

instance : DecidableRel AzLeP := fun _ _ => Bool.decEq _ _

/-- Build the `GVAZ` list, threading the `az_i` and `sn_i` counters. -/
def buildAzsGo (vpc : VPC) :
    List (String × AvailabilityZone) → Nat → Nat → Except Unit (List GVAZ × Nat)
  | [], _, sn_i => Except.ok ([], sn_i)
  | kv :: rest, az_i, sn_i => do
      let top ← azTopList vpc kv.2
      let bottom ← azBottomList vpc kv.2
      let subnet_instances ← mapME
        (fun k =>
          match vpcGet vpc k with
          | some s => Except.ok s
          | none => Except.error ())
        kv.2.subnet_ids
      let sorted ← sortSubnets subnet_instances
      let (sns, sn_i') ← buildSnsGo vpc sorted sn_i
      let (tail, snEnd) ← buildAzsGo vpc rest (az_i + 1) sn_i'
      Except.ok (⟨toString (100 + az_i * 10), kv.1, sns, top, bottom⟩ :: tail, snEnd)

/-- All zone clusters of the rendering. -/
def buildAzs (vpc : VPC) : Except Unit (List GVAZ) := do
  let r ← buildAzsGo vpc (List.insertionSort AzLeP vpc.azs) 0 0
  Except.ok r.1

/-! ## `to_graphviz`: edges -/

/-- Order for `sorted(set(vpc.relations))`: tuple comparison. -/
def RelLeP : (String × String) → (String × String) → Prop :=
  fun a b => pyPairLe a b = true

instance : DecidableRel RelLeP := fun _ _ => Bool.decEq _ _

/-- Order for the final `sorted` over rendered edge statements. -/
def StrLeP : String → String → Prop := fun a b => pyStrLe a b = true

instance : DecidableRel StrLeP := fun _ _ => Bool.decEq _ _

/-- The relation-derived raw edges:
`[edge(vpc[x.source], vpc[x.target], vpc) for x in sorted(set(vpc.relations))
  if x.source in vpc and x.target in vpc]`. -/
def rawRelEdges (vpc : VPC) : Except Unit (List (Option String)) :=
  mapME
    (fun r =>
      match vpcGet vpc r.1, vpcGet vpc r.2 with
      | some s, some t => edge s t vpc
      | _, _ => Except.error ())
    ((List.insertionSort RelLeP vpc.relations.dedup).filter
      (fun r => vpcContains vpc r.1 && vpcContains vpc r.2))

/-- The synthesized raw edges over `product(enis, rtbs)`; a missing lookup
here is a crash (`vpc[eni]` is `None` and `edge` dereferences it). -/
def rawProdEdges (vpc : VPC) : Except Unit (List (Option String)) :=
  mapME
    (fun pr =>
      match vpcGet vpc pr.1, vpcGet vpc pr.2 with
      | some s, some t => edge s t vpc
      | _, _ => Except.error ())
    ((enisOf vpc).flatMap (fun e => (rtbsOf vpc).map (fun r => (e, r))))

/-- The final edge list: drop suppressed (`None`) statements, sort the
rendered strings. -/
def edgesOf (vpc : VPC) : Except Unit (List String) := do
  let raw1 ← rawRelEdges vpc
  let raw2 ← rawProdEdges vpc
  Except.ok (List.insertionSort StrLeP ((raw1 ++ raw2).filterMap id))

/-! ## `to_graphviz`: assembly -/

/-- The context dict handed to the Jinja template (the template itself is a
fixed pure function of this data). -/
structure RenderData where
  vpc_name : String
  route53_services : List String
  top_services : List String
  bottom_services : List String
  nw_services : List String
  azs : List GVAZ
  svc_types : List (String × List String)
  edges : List String
deriving DecidableEq

/-- The subnet-membership map after all `vpc.subnets[k]` reads performed by
`to_graphviz` (every `k` in every zone's `subnet_ids`, in iteration order):
missing keys are auto-vivified with an empty list. -/
def vivify (subnets : List (String × List String))
    (azs : List (String × AvailabilityZone)) : List (String × List String) :=
  azs.foldl
    (fun m kv => kv.2.subnet_ids.foldl (fun m2 k => (ddGet m2 k).2) m)
    subnets

/-- `to_graphviz(vpc, stream)`: returns the template context and the VPC as
it stands after the call (the only state the function touches is the
`subnets` defaultdict, through indexing reads). -/
def toGraphviz (vpc : VPC) : Except Unit (RenderData × VPC) := do
  let route53_services ← regionList vpc Region.route53
  let top_services ← regionList vpc Region.top
  let bottom_services ← regionList vpc Region.bottom
  let nw_services ← regionList vpc Region.nw
  let azs ← buildAzs vpc
  let edges ← edgesOf vpc
  let data : RenderData :=
    ⟨vpc.name ++ "\\n" ++ vpc.id ++ "\\n" ++ vpc.cidr_block,
     route53_services, top_services, bottom_services, nw_services,
     azs, ranksOf vpc, edges⟩
  Except.ok (data,
    ⟨vpc.id, vpc.name, vpc.cidr_block, vpc.services, vpc.relations, vpc.azs,
     vivify vpc.subnets vpc.azs⟩)

/-! ## General helper lemmas -/

/-- Unfolding a bind in `Except Unit`. -/
theorem exceptBind_ok {α β : Type} {x : Except Unit α} {f : α → Except Unit β}
    {b : β} : (x >>= f) = Except.ok b ↔ ∃ a, x = Except.ok a ∧ f a = Except.ok b := by
  cases x with
  | error e => simp [Bind.bind, Except.bind]
  | ok a => simp [Bind.bind, Except.bind]

/-- `vpcContains` is the defined-ness of `vpcGet`. -/
theorem vpcGet_isSome_iff (vpc : VPC) (k : String) :
    vpcContains vpc k = true ↔ ∃ r, vpcGet vpc k = some r := by
  unfold vpcContains vpcGet
  constructor
  · intro h
    have hs : (vpc.services.find? (fun p => p.1 == k)).isSome := by
      rw [List.find?_isSome]
      exact List.any_eq_true.mp h
    rcases Option.isSome_iff_exists.mp hs with ⟨p, hp⟩
    exact ⟨p.2, by rw [hp]; rfl⟩
  · rintro ⟨r, hr⟩
    rcases Option.map_eq_some'.mp hr with ⟨p, hp, -⟩
    have hpk := List.find?_some hp
    exact List.any_eq_true.mpr ⟨p, List.mem_of_find?_eq_some hp, hpk⟩

/-! ## Concrete fixtures -/

def emptyVPC : VPC := ⟨"vpc-0", "v", "10.0.0.0/16", [], [], [], []⟩

def fooSvc : ServiceInstance :=
  ⟨"FOO", "foo-1", "foo-1", "foo-1", "foo-1", "", 0, none, none⟩

def sgSvc : ServiceInstance :=
  ⟨"SG", "sg-1", "sg-1", "sg-1", "sg-1", "", 0, none, none⟩

def ec2Svc : ServiceInstance :=
  ⟨"EC2", "i-1", "i-1", "i-1", "i-1", "t2.micro", 5, none, none⟩

def aclSvc : ServiceInstance :=
  ⟨"ACL", "acl-1", "acl-1", "acl-1", "acl-1", "", 0, none, none⟩

def vpgwSvc : ServiceInstance :=
  ⟨"VPGW", "vgw-1", "vgw-1", "vgw-1", "vgw-1", "", 0, none, none⟩

/-! ## C10 -/

/-- C10: indexing the VPC by a resource id is total — an absent id yields the
no-resource value `none` instead of raising, and membership testing is true
exactly when the lookup returns a resource. -/
theorem C10_lookup_total (vpc : VPC) (k : String) :
    (vpcGet vpc k = none ↔ vpcContains vpc k = false) ∧
    (vpcContains vpc k = true ↔ ∃ r, vpcGet vpc k = some r) := by
  have h := vpcGet_isSome_iff vpc k
  refine ⟨⟨fun hn => ?_, fun hc => ?_⟩, h⟩
  · cases hc : vpcContains vpc k
    · rfl
    · rcases h.mp hc with ⟨r, hr⟩
      rw [hn] at hr
      cases hr
  · cases hg : vpcGet vpc k with
    | none => rfl
    | some r =>
        have hh : vpcContains vpc k = true := h.mpr ⟨r, hg⟩
        rw [hc] at hh
        cases hh

/-! ## C7 -/

/-- C7 counterexample: inserting a relation whose source is the empty string
does change the relation set — the empty-string endpoint is stored, not
dropped as the claim states. -/
theorem C7_counterexample :
    addRelation [] (some "") (some "x") = [("", "x")] ∧
    ([("", "x")] : List (String × String)) ≠ [] := ⟨rfl, by decide⟩

/-- C7 (amended): only a nil/undefined (`None`) endpoint is dropped at
insertion time — the relation set is unchanged and no error is raised; a
present endpoint, including the empty string, is stored like any other id. -/
theorem C7_nil_endpoint_dropped (rels : List (String × String))
    (src trg : Option String) (s t : String)
    (h : src = none ∨ trg = none) :
    addRelation rels src trg = rels ∧
    (s, t) ∈ addRelation rels (some s) (some t) := by
  constructor
  · rcases h with h | h
    · subst h; cases trg <;> rfl
    · subst h; cases src <;> rfl
  · by_cases hc : rels.contains (s, t) = true
    · simp only [addRelation, setAdd, if_pos hc]
      exact List.elem_iff.mp hc
    · simp only [addRelation, setAdd, if_neg hc]
      simp

/-- C7 witness. -/
theorem C7_nil_endpoint_dropped_witness :
    addRelation [] none (some "c") = [] ∧
    ("x", "y") ∈ addRelation [] (some "x") (some "y") :=
  C7_nil_endpoint_dropped [] none (some "c") "x" "y" (Or.inl rfl)

/-! ## C2 -/

/-- C2 (code bug): for a relation endpoint whose type has no entry in the
level table, `level` returns `None`, and the edge router's comparison
`level(source) > level(target)` then raises a `TypeError` instead of treating
the pair as incomparable and rendering the edge with default attributes. -/
theorem C2_unclassified_comparison_raises :
    level "FOO" = none ∧
    edgeAttrs fooSvc sgSvc emptyVPC = Except.error () := ⟨rfl, rfl⟩

/-! ## C5 and C6: edge styling rules -/

/-- The attribute dict of `edge` after the level/cost styling block
(restatement of the branch structure used to prove C5/C6). -/
def levelStyled (source target : ServiceInstance) (l1 l2 : Nat) :
    List (String × String) :=
  if l2 < l1 then
    dictSet (dictSet [("color", graphviz_color source.service_name)]
      "constraint" "False") "style" "invis"
  else if 0 < source.cost_per_month ∧ target.service_name = "SG" then
    dictSet (dictSet [("color", graphviz_color source.service_name)]
      "constraint" "False") "style" "invis"
  else [("color", graphviz_color source.service_name)]

/-- The full attribute dict of `edge` (restatement used to prove C5/C6). -/
def edgeAttrsVal (source target : ServiceInstance) (vpc : VPC) (l1 l2 : Nat) :
    List (String × String) :=
  if source.service_name = "ENI" ∧ target.service_name = "RTB" then
    if vpc.relations.contains (source.id, target.id) = true then
      levelStyled source target l1 l2
    else
      dictSet (dictSet (levelStyled source target l1 l2) "weight" "10")
        "style" "invis"
  else levelStyled source target l1 l2

/-- Evaluation of `edgeAttrs` when both levels are classified and the source
is not a subnet. -/
theorem edgeAttrs_eval (source target : ServiceInstance) (vpc : VPC)
    (l1 l2 : Nat)
    (hs : level source.service_name = some l1)
    (ht : level target.service_name = some l2)
    (hsub : source.service_name ≠ "SUBN") :
    edgeAttrs source target vpc =
      Except.ok (some (edgeAttrsVal source target vpc l1 l2)) := by
  have h1 : (source.service_name == "SUBN") = false := beq_eq_false_iff_ne.mpr hsub
  simp only [edgeAttrs, h1, Bool.false_eq_true, if_false, hs, ht, pyGt,
    Bind.bind, Except.bind, edgeAttrsVal, levelStyled, Bool.and_eq_true,
    decide_eq_true_eq, beq_iff_eq]

/-- C5: for a rendered relation with both types classified, a source level
greater than the target level yields a non-constraining (`constraint=False`)
invisible (`style=invis`) edge; a source level less than the target level —
when no other styling rule applies — yields the default visible,
constraining edge. -/
theorem C5_level_edge_rules (source target : ServiceInstance) (vpc : VPC)
    (l1 l2 : Nat)
    (hs : level source.service_name = some l1)
    (ht : level target.service_name = some l2)
    (hsub : source.service_name ≠ "SUBN") :
    (l2 < l1 → ∃ attrs, edgeAttrs source target vpc = Except.ok (some attrs) ∧
        ("constraint", "False") ∈ attrs ∧ ("style", "invis") ∈ attrs) ∧
    (l1 < l2 →
      ¬(0 < source.cost_per_month ∧ target.service_name = "SG") →
      ¬(source.service_name = "ENI" ∧ target.service_name = "RTB" ∧
          vpc.relations.contains (source.id, target.id) = false) →
      edgeAttrs source target vpc =
        Except.ok (some [("color", graphviz_color source.service_name)])) := by
  have he := edgeAttrs_eval source target vpc l1 l2 hs ht hsub
  constructor
  · intro hgt
    rw [he]
    unfold edgeAttrsVal levelStyled
    rw [if_pos hgt]
    by_cases h2 : source.service_name = "ENI" ∧ target.service_name = "RTB"
    · rw [if_pos h2]
      by_cases h3 : vpc.relations.contains (source.id, target.id) = true
      · rw [if_pos h3]
        exact ⟨_, rfl, by simp [dictSet], by simp [dictSet]⟩
      · rw [if_neg h3]
        exact ⟨_, rfl, by simp [dictSet], by simp [dictSet]⟩
    · rw [if_neg h2]
      exact ⟨_, rfl, by simp [dictSet], by simp [dictSet]⟩
  · intro hlt hcost heni
    rw [he]
    unfold edgeAttrsVal levelStyled
    have hn1 : ¬ (l2 < l1) := by omega
    rw [if_neg hn1, if_neg hcost]
    by_cases h2 : source.service_name = "ENI" ∧ target.service_name = "RTB"
    · have h3 : vpc.relations.contains (source.id, target.id) = true := by
        by_contra hx
        exact heni ⟨h2.1, h2.2, by simpa using hx⟩
      rw [if_pos h2, if_pos h3]
    · rw [if_neg h2]

/-- C5 witness: `ACL` (level 5) pointing at `VPGW` (level 3) is a back-edge,
rendered non-constraining and invisible. -/
theorem C5_witness :
    ∃ attrs, edgeAttrs aclSvc vpgwSvc emptyVPC = Except.ok (some attrs) ∧
      ("constraint", "False") ∈ attrs ∧ ("style", "invis") ∈ attrs :=
  (C5_level_edge_rules aclSvc vpgwSvc emptyVPC 5 3 rfl rfl (by decide)).1
    (by omega)

/-- C6: a rendered relation from a source with positive monthly cost to a
security group is always non-constraining and invisible; with zero cost (and
no back-edge) the edge keeps its default attributes. -/
theorem C6_cost_sg_rule (source target : ServiceInstance) (vpc : VPC)
    (l1 : Nat)
    (hs : level source.service_name = some l1)
    (hsg : target.service_name = "SG")
    (hsub : source.service_name ≠ "SUBN") :
    (0 < source.cost_per_month →
      ∃ attrs, edgeAttrs source target vpc = Except.ok (some attrs) ∧
        ("constraint", "False") ∈ attrs ∧ ("style", "invis") ∈ attrs) ∧
    (source.cost_per_month = 0 → l1 ≤ 17 →
      edgeAttrs source target vpc =
        Except.ok (some [("color", graphviz_color source.service_name)])) := by
  have ht : level target.service_name = some 17 := by rw [hsg]; rfl
  have he := edgeAttrs_eval source target vpc l1 17 hs ht hsub
  have h2 : ¬ (source.service_name = "ENI" ∧ target.service_name = "RTB") := by
    rintro ⟨-, h⟩
    rw [hsg] at h
    exact absurd h (by decide)
  constructor
  · intro hcost
    rw [he]
    unfold edgeAttrsVal levelStyled
    rw [if_neg h2]
    by_cases hgt : 17 < l1
    · rw [if_pos hgt]
      exact ⟨_, rfl, by simp [dictSet], by simp [dictSet]⟩
    · rw [if_neg hgt, if_pos ⟨hcost, hsg⟩]
      exact ⟨_, rfl, by simp [dictSet], by simp [dictSet]⟩
  · intro hcost hle
    rw [he]
    unfold edgeAttrsVal levelStyled
    have hn1 : ¬ (17 < l1) := by omega
    have hn2 : ¬ (0 < source.cost_per_month ∧ target.service_name = "SG") := by
      rintro ⟨hx, -⟩
      rw [hcost] at hx
      exact absurd hx (by norm_num)
    rw [if_neg h2, if_neg hn1, if_neg hn2]

/-- C6 witness: `EC2` with cost 5 pointing at a security group is rendered
non-constraining and invisible. -/
theorem C6_witness :
    ∃ attrs, edgeAttrs ec2Svc sgSvc emptyVPC = Except.ok (some attrs) ∧
      ("constraint", "False") ∈ attrs ∧ ("style", "invis") ∈ attrs :=
  (C6_cost_sg_rule ec2Svc sgSvc emptyVPC 13 rfl rfl (by decide)).1 (by decide)

/-! ## C3: containment analysis -/

/-- Spec-side counting for C3: the number of zones whose membership set
contains `x`. -/
def zonesContainingCount (vpc : VPC) (x : String) : Nat :=
  (vpc.azs.filter (fun kv => kv.2.service_ids.contains x)).length

/-- Spec-side counting for C3: the number of distinct zone-attached subnets
whose membership set contains `x`. -/
def subnetsContainingCount (vpc : VPC) (x : String) : Nat :=
  ((vpc.azs.flatMap (fun kv => kv.2.subnet_ids)).dedup.filter
    (fun k => (subnetsGet vpc k).contains x)).length

/-- On a duplicate-free list, an element's count is its membership
indicator. -/
theorem count_nodup_ind {l : List String} (h : l.Nodup) (x : String) :
    l.count x = if l.contains x then 1 else 0 := by
  by_cases hx : x ∈ l
  · rw [List.count_eq_one_of_mem h hx, if_pos]
    exact List.elem_iff.mpr hx
  · rw [List.count_eq_zero.mpr hx, if_neg]
    intro hc
    exact hx (List.elem_iff.mp hc)

/-- Summing a Boolean indicator over a list counts the filtered length. -/
theorem sum_ind {α : Type} (l : List α) (p : α → Bool) :
    (l.map (fun a => if p a then 1 else 0)).sum = (l.filter p).length := by
  induction l with
  | nil => rfl
  | cons a as ih =>
      by_cases h : p a
      · simp only [List.map_cons, List.sum_cons, List.filter_cons, h, if_true,
          List.length_cons, ih]
        omega
      · simp only [List.map_cons, List.sum_cons, List.filter_cons, h,
          Bool.false_eq_true, if_false, ih]
        omega

/-- Distributing a sum of sums over a flat map. -/
theorem sum_flatMap {α β : Type} (l : List α) (f : α → List β) (g : β → Nat) :
    (l.map (fun a => ((f a).map g).sum)).sum = ((l.flatMap f).map g).sum := by
  induction l with
  | nil => rfl
  | cons a as ih => simp [List.flatMap_cons, ih]

/-- Every subnet membership list is duplicate-free as soon as the stored
lists are. -/
theorem subnetsGet_nodup (vpc : VPC) (hsn : ∀ p ∈ vpc.subnets, p.2.Nodup)
    (k : String) : (subnetsGet vpc k).Nodup := by
  unfold subnetsGet
  cases hf : vpc.subnets.find? (fun p => p.1 == k) with
  | none => simp
  | some p =>
      simp only [hf, Option.map_some', Option.getD_some]
      exact hsn p (List.mem_of_find?_eq_some hf)

/-- The zone tally counts the zones containing an id, when zone membership
lists are duplicate-free. -/
theorem azTally_eq (vpc : VPC) (x : String)
    (haz : ∀ kv ∈ vpc.azs, kv.2.service_ids.Nodup) :
    azTally vpc x = zonesContainingCount vpc x := by
  unfold azTally zonesContainingCount
  have key : ∀ (l : List (String × AvailabilityZone)),
      (∀ kv ∈ l, kv.2.service_ids.Nodup) →
      (l.map (fun kv => kv.2.service_ids.count x)).sum =
        (l.filter (fun kv => kv.2.service_ids.contains x)).length := by
    intro l
    induction l with
    | nil => intro _; rfl
    | cons a as ih =>
        intro hl
        simp only [List.map_cons, List.sum_cons, List.filter_cons]
        rw [count_nodup_ind (hl a (List.mem_cons_self a as)) x,
          ih (fun kv hkv => hl kv (List.mem_cons_of_mem a hkv))]
        by_cases hx : a.2.service_ids.contains x = true
        · rw [if_pos hx, if_pos hx, List.length_cons]
          omega
        · rw [if_neg hx, if_neg hx]
          omega
  exact key vpc.azs haz

/-- The subnet tally counts the subnets containing an id, when membership
lists are duplicate-free and no subnet is attached to two zones. -/
theorem snTally_eq (vpc : VPC) (x : String)
    (hsn : ∀ p ∈ vpc.subnets, p.2.Nodup)
    (hflat : (vpc.azs.flatMap (fun kv => kv.2.subnet_ids)).Nodup) :
    snTally vpc x = subnetsContainingCount vpc x := by
  unfold snTally subnetsContainingCount
  rw [List.dedup_eq_self.mpr hflat, sum_flatMap]
  rw [List.map_congr_left
    (fun k _ => count_nodup_ind (subnetsGet_nodup vpc hsn k) x)]
  exact sum_ind _ _

/-- C3 (amended): an id is `single_subnet` exactly when it lies in exactly
one subnet's membership set, `single_az` exactly when it lies in exactly one
zone and is not `single_subnet`, and `contained` is their union; a resource
in one zone but two or more subnets is `single_az` and not `single_subnet`;
a resource present in two or more zones is never `single_az`, but — unlike
the original claim — it is still `single_subnet` whenever its subnet count
is exactly one (the subnet test is independent of the zone count). -/
theorem C3_containment_rules (vpc : VPC) (x : String)
    (hsn : ∀ p ∈ vpc.subnets, p.2.Nodup)
    (haz : ∀ kv ∈ vpc.azs, kv.2.service_ids.Nodup)
    (hflat : (vpc.azs.flatMap (fun kv => kv.2.subnet_ids)).Nodup) :
    (single_subnetB vpc x = true ↔ subnetsContainingCount vpc x = 1) ∧
    (single_azB vpc x = true ↔
      (zonesContainingCount vpc x = 1 ∧ single_subnetB vpc x = false)) ∧
    (containedB vpc x = (single_subnetB vpc x || single_azB vpc x)) ∧
    (zonesContainingCount vpc x = 1 → 2 ≤ subnetsContainingCount vpc x →
      single_azB vpc x = true ∧ single_subnetB vpc x = false) ∧
    (2 ≤ zonesContainingCount vpc x → single_azB vpc x = false) := by
  have h1 := snTally_eq vpc x hsn hflat
  have h2 := azTally_eq vpc x haz
  refine ⟨?_, ?_, rfl, ?_, ?_⟩
  · simp [single_subnetB, h1]
  · simp [single_azB, single_subnetB, h1, h2, Bool.and_eq_true,
      Bool.not_eq_true']
  · intro hz hs2
    constructor
    · simp only [single_azB, single_subnetB, h1, h2]
      rw [hz]
      simp only [beq_self_eq_true, Bool.true_and, Bool.not_eq_true',
        beq_eq_false_iff_ne]
      omega
    · simp only [single_subnetB, h1, beq_eq_false_iff_ne]
      omega
  · intro hz
    simp only [single_azB, h2, Bool.and_eq_false_iff, beq_eq_false_iff_ne]
    left
    omega

/-- C3 counterexample: fixture with one resource present in two zones'
membership sets but only one subnet's. -/
def vpcC3 : VPC :=
  ⟨"vpc-3", "v", "10.0.0.0/16", [], [],
   [("az-a", ⟨["x"], ["sn-1"]⟩), ("az-b", ⟨["x"], []⟩)],
   [("sn-1", ["x"])]⟩

/-- C3 counterexample: a resource present in two zones is still classified
`single_subnet` (hence `contained`) when its subnet tally is one — the claim
says it should be neither. -/
theorem C3_counterexample :
    zonesContainingCount vpcC3 "x" = 2 ∧ single_subnetB vpcC3 "x" = true ∧
    containedB vpcC3 "x" = true := by decide

/-- C3 witness. -/
theorem C3_witness :
    (single_subnetB vpcC3 "x" = true ↔ subnetsContainingCount vpcC3 "x" = 1) ∧
    (single_azB vpcC3 "x" = true ↔
      (zonesContainingCount vpcC3 "x" = 1 ∧ single_subnetB vpcC3 "x" = false)) ∧
    (containedB vpcC3 "x" = (single_subnetB vpcC3 "x" || single_azB vpcC3 "x")) ∧
    (zonesContainingCount vpcC3 "x" = 1 → 2 ≤ subnetsContainingCount vpcC3 "x" →
      single_azB vpcC3 "x" = true ∧ single_subnetB vpcC3 "x" = false) ∧
    (2 ≤ zonesContainingCount vpcC3 "x" → single_azB vpcC3 "x" = false) :=
  C3_containment_rules vpcC3 "x" (by decide) (by decide) (by decide)

/-! ## C8: what rendering does to the graph state -/

/-- The VPC state returned by `to_graphviz` differs from the input only in
the `subnets` defaultdict. -/
theorem toGraphviz_state (vpc : VPC) {r : RenderData × VPC}
    (h : toGraphviz vpc = Except.ok r) :
    r.2 = ⟨vpc.id, vpc.name, vpc.cidr_block, vpc.services, vpc.relations,
      vpc.azs, vivify vpc.subnets vpc.azs⟩ := by
  simp only [toGraphviz, exceptBind_ok] at h
  obtain ⟨a1, -, a2, -, a3, -, a4, -, a5, -, a6, -, h⟩ := h
  simp only [Except.ok.injEq] at h
  rw [← h]

/-- A `defaultdict` read of a present key does not change the map. -/
theorem ddGet_snd_of_found {m : List (String × List String)} {k : String}
    (h : (m.find? (fun p => p.1 == k)).isSome = true) : (ddGet m k).2 = m := by
  rcases hf : m.find? (fun p => p.1 == k) with - | p
  · rw [hf] at h
    cases h
  · simp [ddGet, hf]

/-- Folding `defaultdict` reads over present keys leaves the map unchanged. -/
theorem foldl_ddGet_eq_self (subnets : List (String × List String))
    (ids : List String) :
    (∀ k ∈ ids, (subnets.find? (fun p => p.1 == k)).isSome = true) →
    ids.foldl (fun m2 k => (ddGet m2 k).2) subnets = subnets := by
  induction ids with
  | nil => intro _; rfl
  | cons k ks ih =>
      intro h
      simp only [List.foldl_cons]
      rw [ddGet_snd_of_found (h k (List.mem_cons_self k ks))]
      exact ih (fun k2 hk2 => h k2 (List.mem_cons_of_mem k hk2))

/-- When every zone-attached subnet id is already a key, the vivification is
the identity. -/
theorem vivify_eq_self (subnets : List (String × List String))
    (azs : List (String × AvailabilityZone)) :
    (∀ kv ∈ azs, ∀ k ∈ kv.2.subnet_ids,
      (subnets.find? (fun p => p.1 == k)).isSome = true) →
    vivify subnets azs = subnets := by
  unfold vivify
  induction azs with
  | nil => intro _; rfl
  | cons kv kvs ih =>
      intro h
      simp only [List.foldl_cons]
      rw [foldl_ddGet_eq_self subnets kv.2.subnet_ids
        (h kv (List.mem_cons_self kv kvs))]
      exact ih (fun kv2 hkv2 => h kv2 (List.mem_cons_of_mem kv hkv2))

/-- C8 (amended): a successful rendering never changes the resource map, the
relation set or the zone map; the subnet-membership defaultdict, however, is
changed by auto-vivification — after the call it is `vivify` of the input —
and it is unchanged exactly on graphs where every zone-attached subnet id
already has a membership entry. -/
theorem C8_render_mutation (vpc : VPC)
    (h : ∃ r, toGraphviz vpc = Except.ok r) :
    (toGraphviz vpc).map (fun r => r.2.services) = Except.ok vpc.services ∧
    (toGraphviz vpc).map (fun r => r.2.relations) = Except.ok vpc.relations ∧
    (toGraphviz vpc).map (fun r => r.2.azs) = Except.ok vpc.azs ∧
    (toGraphviz vpc).map (fun r => r.2.subnets) =
      Except.ok (vivify vpc.subnets vpc.azs) ∧
    ((∀ kv ∈ vpc.azs, ∀ k ∈ kv.2.subnet_ids,
        (vpc.subnets.find? (fun p => p.1 == k)).isSome = true) →
      (toGraphviz vpc).map (fun r => r.2.subnets) = Except.ok vpc.subnets) := by
  obtain ⟨r, hr⟩ := h
  have hst := toGraphviz_state vpc hr
  rw [hr]
  simp only [Except.map]
  rw [hst]
  exact ⟨rfl, rfl, rfl, rfl,
    fun hp => by rw [vivify_eq_self vpc.subnets vpc.azs hp]⟩

/-- C8 counterexample fixture: one subnet resource attached to a zone, with
no membership entry for it. -/
def subnSvc : ServiceInstance :=
  ⟨"SUBN", "sn-1", "sn-1", "sn-1", "sn-1", "", 0, some "10.0.0.0/24",
   some "Private"⟩

def vpcC8 : VPC :=
  ⟨"vpc-8", "v", "10.0.0.0/16", [("sn-1", subnSvc)], [],
   [("az-a", ⟨[], ["sn-1"]⟩)], []⟩

/-- C8 counterexample: rendering this graph adds an empty membership entry
for the zone-attached subnet — the subnet-membership map is not left
unchanged. -/
theorem C8_counterexample :
    (toGraphviz vpcC8).map (fun r => r.2.subnets) = Except.ok [("sn-1", [])] ∧
    vpcC8.subnets = [] := ⟨rfl, rfl⟩

/-- C8 witness fixture: the same graph with the membership entry present. -/
def vpcC8b : VPC :=
  ⟨"vpc-8b", "v", "10.0.0.0/16", [("sn-1", subnSvc)], [],
   [("az-a", ⟨[], ["sn-1"]⟩)], [("sn-1", [])]⟩

/-- C8 witness. -/
theorem C8_witness :
    (toGraphviz vpcC8b).map (fun r => r.2.services) = Except.ok vpcC8b.services ∧
    (toGraphviz vpcC8b).map (fun r => r.2.relations) = Except.ok vpcC8b.relations ∧
    (toGraphviz vpcC8b).map (fun r => r.2.azs) = Except.ok vpcC8b.azs ∧
    (toGraphviz vpcC8b).map (fun r => r.2.subnets) =
      Except.ok (vivify vpcC8b.subnets vpcC8b.azs) ∧
    ((∀ kv ∈ vpcC8b.azs, ∀ k ∈ kv.2.subnet_ids,
        (vpcC8b.subnets.find? (fun p => p.1 == k)).isSome = true) →
      (toGraphviz vpcC8b).map (fun r => r.2.subnets) = Except.ok vpcC8b.subnets) :=
  C8_render_mutation vpcC8b ⟨_, rfl⟩

/-! ## Order facts about the embedded Python comparisons -/

/-- Python list `<` is asymmetric. -/
theorem pyLexLt_asymm {α : Type} [LinearOrder α] :
    ∀ {a b : List α}, pyLexLt a b = true → pyLexLt b a = false := by
  intro a
  induction a with
  | nil =>
      intro b h
      cases b with
      | nil => simp [pyLexLt] at h
      | cons y ys => simp [pyLexLt]
  | cons x xs ih =>
      intro b h
      cases b with
      | nil => simp [pyLexLt] at h
      | cons y ys =>
          simp only [pyLexLt] at h ⊢
          by_cases h1 : x < y
          · rw [if_neg (lt_asymm h1), if_pos h1]
          · by_cases h2 : y < x
            · rw [if_neg h1, if_pos h2] at h
              cases h
            · rw [if_neg h1, if_neg h2] at h
              rw [if_neg h2, if_neg h1]
              exact ih h

/-- Python list `<`: mutual non-strictness forces equality. -/
theorem pyLexLt_eq_of_not {α : Type} [LinearOrder α] :
    ∀ {a b : List α}, pyLexLt a b = false → pyLexLt b a = false → a = b := by
  intro a
  induction a with
  | nil =>
      intro b h1 _
      cases b with
      | nil => rfl
      | cons y ys => simp [pyLexLt] at h1
  | cons x xs ih =>
      intro b h1 h2
      cases b with
      | nil => simp [pyLexLt] at h2
      | cons y ys =>
          simp only [pyLexLt] at h1 h2
          by_cases hxy : x < y
          · rw [if_pos hxy] at h1
            cases h1
          · by_cases hyx : y < x
            · rw [if_pos hyx] at h2
              cases h2
            · rw [if_neg hxy, if_neg hyx] at h1
              rw [if_neg hyx, if_neg hxy] at h2
              have hx : x = y := le_antisymm (not_lt.mp hyx) (not_lt.mp hxy)
              rw [hx, ih h1 h2]

/-- Python list `<` is transitive. -/
theorem pyLexLt_trans {α : Type} [LinearOrder α] :
    ∀ {a b c : List α}, pyLexLt a b = true → pyLexLt b c = true →
      pyLexLt a c = true := by
  intro a
  induction a with
  | nil =>
      intro b c h1 h2
      cases b with
      | nil => simp [pyLexLt] at h1
      | cons y ys =>
          cases c with
          | nil => simp [pyLexLt] at h2
          | cons z zs => simp [pyLexLt]
  | cons x xs ih =>
      intro b c h1 h2
      cases b with
      | nil => simp [pyLexLt] at h1
      | cons y ys =>
          cases c with
          | nil => simp [pyLexLt] at h2
          | cons z zs =>
              simp only [pyLexLt] at h1 h2 ⊢
              by_cases hxy : x < y
              · by_cases hyz : y < z
                · rw [if_pos (lt_trans hxy hyz)]
                · by_cases hzy : z < y
                  · rw [if_neg hyz, if_pos hzy] at h2
                    cases h2
                  · have hyz' : y = z :=
                      le_antisymm (not_lt.mp hzy) (not_lt.mp hyz)
                    rw [if_pos (hyz' ▸ hxy)]
              · by_cases hyx : y < x
                · rw [if_neg hxy, if_pos hyx] at h1
                  cases h1
                · have hxy' : x = y := le_antisymm (not_lt.mp hyx) (not_lt.mp hxy)
                  rw [if_neg hxy, if_neg hyx] at h1
                  subst hxy'
                  by_cases hyz : x < z
                  · rw [if_pos hyz]
                  · by_cases hzy : z < x
                    · rw [if_neg hyz, if_pos hzy] at h2
                      cases h2
                    · rw [if_neg hyz, if_neg hzy] at h2
                      rw [if_neg hyz, if_neg hzy]
                      exact ih h1 h2

/-- The negated Python list `<` (Python `<=`) is total. -/
theorem pyLexGe_total {α : Type} [LinearOrder α] (a b : List α) :
    (!pyLexLt b a) = true ∨ (!pyLexLt a b) = true := by
  by_cases h : pyLexLt b a = true
  · right
    rw [pyLexLt_asymm h]
    rfl
  · left
    rw [Bool.not_eq_true] at h
    rw [h]
    rfl

/-- The negated Python list `<` (Python `<=`) is transitive. -/
theorem pyLexGe_trans {α : Type} [LinearOrder α] {a b c : List α}
    (h1 : (!pyLexLt b a) = true) (h2 : (!pyLexLt c b) = true) :
    (!pyLexLt c a) = true := by
  rw [Bool.not_eq_true'] at h1 h2 ⊢
  by_contra hc
  rw [Bool.not_eq_false] at hc
  by_cases hab : pyLexLt a b = true
  · have := pyLexLt_trans hc hab
    rw [this] at h2
    cases h2
  · rw [Bool.not_eq_true] at hab
    have he : a = b := pyLexLt_eq_of_not hab h1
    rw [← he] at h2
    rw [hc] at h2
    cases h2

/-- Python string `<=` is total. -/
theorem pyStrLe_total (a b : String) :
    pyStrLe a b = true ∨ pyStrLe b a = true := pyLexGe_total a.data b.data

/-- Python string `<=` is transitive. -/
theorem pyStrLe_trans {a b c : String} (h1 : pyStrLe a b = true)
    (h2 : pyStrLe b c = true) : pyStrLe a c = true := pyLexGe_trans h1 h2

/-- Python string `<=` is antisymmetric. -/
theorem pyStrLe_antisymm {a b : String} (h1 : pyStrLe a b = true)
    (h2 : pyStrLe b a = true) : a = b := by
  unfold pyStrLe at h1 h2
  rw [Bool.not_eq_true'] at h1 h2
  exact String.ext (pyLexLt_eq_of_not h2 h1)

/-- Python string-pair `<=` is total. -/
theorem pyPairLe_total (a b : String × String) :
    pyPairLe a b = true ∨ pyPairLe b a = true := by
  unfold pyPairLe
  by_cases h1 : pyStrLt a.1 b.1 = true
  · left
    simp [h1]
  · by_cases h2 : pyStrLt b.1 a.1 = true
    · right
      simp [h2]
    · rw [Bool.not_eq_true] at h1 h2
      have he : a.1 = b.1 :=
        String.ext (pyLexLt_eq_of_not h1 h2)
      rcases pyStrLe_total a.2 b.2 with h | h
      · left
        simp [he, h]
      · right
        simp [he, h]

/-- Python string-pair `<=` is transitive. -/
theorem pyPairLe_trans {a b c : String × String} (h1 : pyPairLe a b = true)
    (h2 : pyPairLe b c = true) : pyPairLe a c = true := by
  simp only [pyPairLe, Bool.or_eq_true, Bool.and_eq_true, beq_iff_eq] at h1 h2 ⊢
  rcases h1 with h1 | ⟨e1, l1⟩
  · rcases h2 with h2 | ⟨e2, l2⟩
    · exact Or.inl (pyLexLt_trans h1 h2)
    · rw [← e2]
      exact Or.inl h1
  · rcases h2 with h2 | ⟨e2, l2⟩
    · rw [e1]
      exact Or.inl h2
    · exact Or.inr ⟨e1.trans e2, pyStrLe_trans l1 l2⟩

/-- Python string `<` is asymmetric. -/
theorem pyStrLt_asymm {a b : String} (h : pyStrLt a b = true) :
    pyStrLt b a = false := pyLexLt_asymm h

/-- Python string-pair `<=` is antisymmetric. -/
theorem pyPairLe_antisymm {a b : String × String} (h1 : pyPairLe a b = true)
    (h2 : pyPairLe b a = true) : a = b := by
  simp only [pyPairLe, Bool.or_eq_true, Bool.and_eq_true, beq_iff_eq] at h1 h2
  rcases h1 with h1 | ⟨e1, l1⟩
  · rcases h2 with h2 | ⟨e2, l2⟩
    · have hx := pyStrLt_asymm h1
      rw [hx] at h2
      cases h2
    · rw [e2] at h1
      have hx := pyStrLt_asymm h1
      rw [hx] at h1
      cases h1
  · rcases h2 with h2 | ⟨e2, l2⟩
    · rw [e1] at h2
      have hx := pyStrLt_asymm h2
      rw [hx] at h2
      cases h2
    · exact Prod.ext e1 (pyStrLe_antisymm l1 l2)

instance : IsTotal String StrLeP := ⟨pyStrLe_total⟩

instance : IsTrans String StrLeP := ⟨fun _ _ _ => pyStrLe_trans⟩

instance : IsAntisymm String StrLeP := ⟨fun _ _ => pyStrLe_antisymm⟩

instance : IsTotal (String × String) RelLeP := ⟨pyPairLe_total⟩

instance : IsTrans (String × String) RelLeP := ⟨fun _ _ _ => pyPairLe_trans⟩

instance : IsAntisymm (String × String) RelLeP := ⟨fun _ _ => pyPairLe_antisymm⟩

instance : IsTotal (String × AvailabilityZone) AzLeP :=
  ⟨fun a b => pyStrLe_total a.1 b.1⟩

instance : IsTrans (String × AvailabilityZone) AzLeP :=
  ⟨fun _ _ _ => pyStrLe_trans⟩

instance : IsTotal (List Int × ServiceInstance) KeyLeP :=
  ⟨fun a b => pyLexGe_total a.1 b.1⟩

instance : IsTrans (List Int × ServiceInstance) KeyLeP :=
  ⟨fun _ _ _ => pyLexGe_trans⟩

/-! ## C9: determinism and output order -/

/-- The same graph with another list representation of the relation set. -/
def vpcWithRels (vpc : VPC) (rels' : List (String × String)) : VPC :=
  ⟨vpc.id, vpc.name, vpc.cidr_block, vpc.services, rels', vpc.azs, vpc.subnets⟩

theorem withRels_relations (vpc : VPC) (rels' : List (String × String)) :
    (vpcWithRels vpc rels').relations = rels' := rfl

theorem withRels_services (vpc : VPC) (rels' : List (String × String)) :
    (vpcWithRels vpc rels').services = vpc.services := rfl

theorem withRels_azs (vpc : VPC) (rels' : List (String × String)) :
    (vpcWithRels vpc rels').azs = vpc.azs := rfl

theorem withRels_subnets (vpc : VPC) (rels' : List (String × String)) :
    (vpcWithRels vpc rels').subnets = vpc.subnets := rfl

theorem withRels_id (vpc : VPC) (rels' : List (String × String)) :
    (vpcWithRels vpc rels').id = vpc.id := rfl

theorem withRels_name (vpc : VPC) (rels' : List (String × String)) :
    (vpcWithRels vpc rels').name = vpc.name := rfl

theorem withRels_cidr_block (vpc : VPC) (rels' : List (String × String)) :
    (vpcWithRels vpc rels').cidr_block = vpc.cidr_block := rfl

theorem withRels_vpcGet (vpc : VPC) (rels' : List (String × String)) :
    vpcGet (vpcWithRels vpc rels') = vpcGet vpc := rfl

theorem withRels_vpcContains (vpc : VPC) (rels' : List (String × String)) :
    vpcContains (vpcWithRels vpc rels') = vpcContains vpc := rfl

theorem withRels_subnetsGet (vpc : VPC) (rels' : List (String × String)) :
    subnetsGet (vpcWithRels vpc rels') = subnetsGet vpc := rfl

theorem withRels_single_subnetB (vpc : VPC) (rels' : List (String × String)) :
    single_subnetB (vpcWithRels vpc rels') = single_subnetB vpc := rfl

theorem withRels_single_azB (vpc : VPC) (rels' : List (String × String)) :
    single_azB (vpcWithRels vpc rels') = single_azB vpc := rfl

theorem withRels_containedB (vpc : VPC) (rels' : List (String × String)) :
    containedB (vpcWithRels vpc rels') = containedB vpc := rfl

theorem withRels_azTopList (vpc : VPC) (rels' : List (String × String)) :
    azTopList (vpcWithRels vpc rels') = azTopList vpc := rfl

theorem withRels_azBottomList (vpc : VPC) (rels' : List (String × String)) :
    azBottomList (vpcWithRels vpc rels') = azBottomList vpc := rfl

/-- `any` over a permutation. -/
theorem perm_any {α : Type} {l l' : List α} (h : l.Perm l') (p : α → Bool) :
    l.any p = l'.any p := by
  simp only [List.any_eq]
  exact decide_eq_decide.mpr
    ⟨fun ⟨x, hx, hp⟩ => ⟨x, h.mem_iff.mp hx, hp⟩,
     fun ⟨x, hx, hp⟩ => ⟨x, h.mem_iff.mpr hx, hp⟩⟩

/-- `contains` over a permutation. -/
theorem perm_contains {α : Type} [BEq α] {l l' : List α} (h : l.Perm l')
    (a : α) : l.contains a = l'.contains a := by
  induction h with
  | nil => rfl
  | cons x _ ih => simp [List.contains_cons, ih]
  | swap x y l => simp [List.contains_cons, Bool.or_left_comm]
  | trans _ _ ih1 ih2 => rw [ih1, ih2]

/-- `connectedB` only reads the relation list through `any`, so it is
invariant under permutation of that list. -/
theorem connectedB_perm (vpc : VPC) (rels' : List (String × String))
    (h : vpc.relations.Perm rels') (x : String) :
    connectedB (vpcWithRels vpc rels') x = connectedB vpc x := by
  unfold connectedB
  rw [withRels_relations, withRels_services,
    perm_any h.symm (fun r => r.1 == x || r.2 == x)]

/-- `edgeAttrs` only reads the relation list through `contains`. -/
theorem edgeAttrs_perm (vpc : VPC) (rels' : List (String × String))
    (h : vpc.relations.Perm rels') (s t : ServiceInstance) :
    edgeAttrs s t (vpcWithRels vpc rels') = edgeAttrs s t vpc := by
  unfold edgeAttrs
  rw [withRels_relations, perm_contains h.symm (s.id, t.id)]

/-- `edge` over a permutation of the relation list. -/
theorem edge_perm (vpc : VPC) (rels' : List (String × String))
    (h : vpc.relations.Perm rels') (s t : ServiceInstance) :
    edge s t (vpcWithRels vpc rels') = edge s t vpc := by
  unfold edge
  rw [edgeAttrs_perm vpc rels' h s t]

/-- Pointwise-equal bodies give equal `mapME` runs. -/
theorem mapME_congr {α β : Type} {f g : α → Except Unit β} :
    ∀ {l : List α}, (∀ a ∈ l, f a = g a) → mapME f l = mapME g l := by
  intro l
  induction l with
  | nil => intro _; rfl
  | cons a as ih =>
      intro hfg
      unfold mapME
      rw [hfg a (List.mem_cons_self a as),
        ih (fun x hx => hfg x (List.mem_cons_of_mem a hx))]

/-- Pointwise-equal functions give equal folds. -/
theorem foldl_func_congr {α β : Type} {f g : β → α → β}
    (hfg : ∀ b a, f b a = g b a) :
    ∀ (l : List α) (init : β), l.foldl f init = l.foldl g init := by
  intro l
  induction l with
  | nil => intro _; rfl
  | cons a as ih =>
      intro init
      rw [List.foldl_cons, List.foldl_cons, hfg, ih]

/-- Pointwise-equal functions give equal `filterMap`s. -/
theorem filterMap_func_congr {α β : Type} {f g : α → Option β}
    (hfg : ∀ a, f a = g a) : ∀ l : List α, l.filterMap f = l.filterMap g := by
  intro l
  induction l with
  | nil => rfl
  | cons a as ih => simp only [List.filterMap_cons, hfg, ih]

/-- Pointwise-equal predicates give equal filters. -/
theorem filter_func_congr {α : Type} {p q : α → Bool} (hpq : ∀ a, p a = q a) :
    ∀ l : List α, l.filter p = l.filter q := by
  intro l
  induction l with
  | nil => rfl
  | cons a as ih => simp only [List.filter_cons, hpq, ih]

theorem routeMain_perm (vpc : VPC) (rels' : List (String × String))
    (h : vpc.relations.Perm rels') (v : ServiceInstance) :
    routeMain (vpcWithRels vpc rels') v = routeMain vpc v := by
  unfold routeMain
  rw [connectedB_perm vpc rels' h v.id, withRels_containedB]

theorem regionList_perm (vpc : VPC) (rels' : List (String × String))
    (h : vpc.relations.Perm rels') (r : Region) :
    regionList (vpcWithRels vpc rels') r = regionList vpc r := by
  unfold regionList
  rw [withRels_services]
  rw [mapME_congr (fun p _ => by rw [routeMain_perm vpc rels' h p.2])]

theorem ranksOf_perm (vpc : VPC) (rels' : List (String × String))
    (h : vpc.relations.Perm rels') :
    ranksOf (vpcWithRels vpc rels') = ranksOf vpc := by
  unfold ranksOf
  rw [withRels_services]
  exact foldl_func_congr
    (fun acc p => by rw [connectedB_perm vpc rels' h p.2.id]) vpc.services []

theorem enisOf_perm (vpc : VPC) (rels' : List (String × String))
    (h : vpc.relations.Perm rels') :
    enisOf (vpcWithRels vpc rels') = enisOf vpc := by
  unfold enisOf
  rw [withRels_services]
  exact filterMap_func_congr
    (fun p => by rw [connectedB_perm vpc rels' h p.2.id]) vpc.services

theorem rtbsOf_perm (vpc : VPC) (rels' : List (String × String))
    (h : vpc.relations.Perm rels') :
    rtbsOf (vpcWithRels vpc rels') = rtbsOf vpc := by
  unfold rtbsOf
  rw [withRels_services]
  exact filterMap_func_congr
    (fun p => by rw [connectedB_perm vpc rels' h p.2.id]) vpc.services

theorem insideOf_perm (vpc : VPC) (rels' : List (String × String))
    (h : vpc.relations.Perm rels') (sn : String) :
    insideOf (vpcWithRels vpc rels') sn = insideOf vpc sn := by
  unfold insideOf
  rw [withRels_subnetsGet, withRels_vpcGet, withRels_single_subnetB]
  rw [filter_func_congr
    (fun x => by rw [connectedB_perm vpc rels' h x]) (subnetsGet vpc sn)]

theorem buildSnsGo_perm (vpc : VPC) (rels' : List (String × String))
    (h : vpc.relations.Perm rels') :
    ∀ (l : List ServiceInstance) (si : Nat),
      buildSnsGo (vpcWithRels vpc rels') l si = buildSnsGo vpc l si := by
  intro l
  induction l with
  | nil => intro _; rfl
  | cons s rest ih =>
      intro si
      unfold buildSnsGo
      rw [insideOf_perm vpc rels' h s.id, ih (si + 1)]

theorem buildAzsGo_perm (vpc : VPC) (rels' : List (String × String))
    (h : vpc.relations.Perm rels') :
    ∀ (l : List (String × AvailabilityZone)) (ai si : Nat),
      buildAzsGo (vpcWithRels vpc rels') l ai si = buildAzsGo vpc l ai si := by
  intro l
  induction l with
  | nil => intro _ _; rfl
  | cons kv rest ih =>
      intro ai si
      unfold buildAzsGo
      rw [withRels_azTopList, withRels_azBottomList, withRels_vpcGet]
      simp only [buildSnsGo_perm vpc rels' h, ih]

theorem buildAzs_perm (vpc : VPC) (rels' : List (String × String))
    (h : vpc.relations.Perm rels') :
    buildAzs (vpcWithRels vpc rels') = buildAzs vpc := by
  unfold buildAzs
  rw [withRels_azs, buildAzsGo_perm vpc rels' h]

theorem edgesOf_perm (vpc : VPC) (rels' : List (String × String))
    (h : vpc.relations.Perm rels') :
    edgesOf (vpcWithRels vpc rels') = edgesOf vpc := by
  unfold edgesOf rawRelEdges rawProdEdges
  rw [withRels_relations, withRels_vpcGet, withRels_vpcContains,
    enisOf_perm vpc rels' h, rtbsOf_perm vpc rels' h]
  have hsort : List.insertionSort RelLeP rels'.dedup =
      List.insertionSort RelLeP vpc.relations.dedup :=
    List.eq_of_perm_of_sorted
      ((List.perm_insertionSort RelLeP rels'.dedup).trans
        ((h.symm.dedup).trans
          (List.perm_insertionSort RelLeP vpc.relations.dedup).symm))
      (List.sorted_insertionSort RelLeP rels'.dedup)
      (List.sorted_insertionSort RelLeP vpc.relations.dedup)
  rw [hsort]
  simp only [edge_perm vpc rels' h]

/-- Provenance of `mapME` outputs. -/
theorem mapME_mem {α β : Type} {f : α → Except Unit β} :
    ∀ {l : List α} {ys : List β}, mapME f l = Except.ok ys →
      ∀ y ∈ ys, ∃ a ∈ l, f a = Except.ok y := by
  intro l
  induction l with
  | nil =>
      intro ys h y hy
      simp only [mapME, Except.ok.injEq] at h
      rw [← h] at hy
      cases hy
  | cons a as ih =>
      intro ys h y hy
      simp only [mapME, exceptBind_ok] at h
      obtain ⟨b, hb, bs, hbs, hok⟩ := h
      simp only [Except.ok.injEq] at hok
      rw [← hok] at hy
      rcases List.mem_cons.mp hy with hyb | hybs
      · exact ⟨a, List.mem_cons_self a as, by rw [hyb]; exact hb⟩
      · obtain ⟨a2, ha2, hfa2⟩ := ih hbs y hybs
        exact ⟨a2, List.mem_cons_of_mem a ha2, hfa2⟩

/-- The zone clusters are labelled with the zone keys, in the order they
were built. -/
theorem buildAzsGo_labels (vpc : VPC) :
    ∀ (l : List (String × AvailabilityZone)) (ai si : Nat)
      {res : List GVAZ × Nat}, buildAzsGo vpc l ai si = Except.ok res →
      res.1.map GVAZ.label = l.map Prod.fst := by
  intro l
  induction l with
  | nil =>
      intro ai si res hres
      simp only [buildAzsGo, Except.ok.injEq] at hres
      rw [← hres]
      rfl
  | cons kv rest ih =>
      intro ai si res hres
      simp only [buildAzsGo, exceptBind_ok] at hres
      obtain ⟨top, -, bottom, -, sis, -, sorted, -, ⟨sns, si2⟩, -,
        ⟨tail, snEnd⟩, htail, hok⟩ := hres
      simp only [Except.ok.injEq] at hok
      rw [← hok]
      simp only [List.map_cons]
      rw [ih (ai + 1) si2 htail]

/-- C9: the rendering order is fully deterministic — the final edge list is
sorted lexically over the rendered statements, the zone clusters appear in
zone-name order, the subnets of a zone appear in ascending numeric CIDR-key
order, and the rendered data is invariant under permuting the list that
represents the relation set (the Python set has no canonical iteration
order), so identical graphs always yield byte-identical text. -/
theorem C9_deterministic_output :
    (∀ (vpc : VPC) (es : List String), edgesOf vpc = Except.ok es →
      es.Sorted StrLeP) ∧
    (∀ (vpc : VPC) (gvazs : List GVAZ), buildAzs vpc = Except.ok gvazs →
      (gvazs.map GVAZ.label).Sorted StrLeP) ∧
    (∀ (l l2 : List ServiceInstance), sortSubnets l = Except.ok l2 →
      l2.Pairwise (fun a b => ∀ ka kb, cidr_sort a = Except.ok ka →
        cidr_sort b = Except.ok kb → pyListLe ka kb = true)) ∧
    (∀ (vpc : VPC) (rels' : List (String × String)), vpc.relations.Perm rels' →
      (toGraphviz vpc).map Prod.fst =
        (toGraphviz (vpcWithRels vpc rels')).map Prod.fst) := by
  refine ⟨?_, ?_, ?_, ?_⟩
  · intro vpc es h
    unfold edgesOf at h
    simp only [exceptBind_ok] at h
    obtain ⟨r1, -, r2, -, hok⟩ := h
    simp only [Except.ok.injEq] at hok
    rw [← hok]
    exact List.sorted_insertionSort StrLeP _
  · intro vpc gvazs h
    unfold buildAzs at h
    simp only [exceptBind_ok] at h
    obtain ⟨r, hr, hok⟩ := h
    simp only [Except.ok.injEq] at hok
    rw [← hok, buildAzsGo_labels vpc _ 0 0 hr]
    rw [List.Sorted, List.pairwise_map]
    exact List.sorted_insertionSort AzLeP vpc.azs
  · intro l l2 h
    unfold sortSubnets at h
    simp only [exceptBind_ok] at h
    obtain ⟨dec, hdec, hok⟩ := h
    simp only [Except.ok.injEq] at hok
    have hprov : ∀ p ∈ List.insertionSort KeyLeP dec,
        cidr_sort p.2 = Except.ok p.1 := by
      intro p hp
      have hp2 : p ∈ dec := (List.perm_insertionSort KeyLeP dec).mem_iff.mp hp
      obtain ⟨s, -, hfs⟩ := mapME_mem hdec p hp2
      simp only [exceptBind_ok] at hfs
      obtain ⟨k, hk, hok2⟩ := hfs
      simp only [Except.ok.injEq] at hok2
      rw [← hok2]
      exact hk
    rw [← hok, List.pairwise_map]
    refine List.Pairwise.imp_of_mem ?_ (List.sorted_insertionSort KeyLeP dec)
    intro p q hp hq hpq ka kb hka hkb
    have h1 := hprov p hp
    have h2 := hprov q hq
    rw [hka] at h1
    rw [hkb] at h2
    simp only [Except.ok.injEq] at h1 h2
    rw [h1, h2]
    exact hpq
  · intro vpc rels' h
    unfold toGraphviz
    simp only [regionList_perm vpc rels' h, buildAzs_perm vpc rels' h,
      edgesOf_perm vpc rels' h, ranksOf_perm vpc rels' h, withRels_name,
      withRels_id, withRels_cidr_block, withRels_services, withRels_relations,
      withRels_azs, withRels_subnets]
    cases h1 : regionList vpc Region.route53 with
    | error e => rfl
    | ok a1 =>
        simp only [Bind.bind, Except.bind]
        cases h2 : regionList vpc Region.top with
        | error e => rfl
        | ok a2 =>
            simp only [Bind.bind, Except.bind]
            cases h3 : regionList vpc Region.bottom with
            | error e => rfl
            | ok a3 =>
                simp only [Bind.bind, Except.bind]
                cases h4 : regionList vpc Region.nw with
                | error e => rfl
                | ok a4 =>
                    simp only [Bind.bind, Except.bind]
                    cases h5 : buildAzs vpc with
                    | error e => rfl
                    | ok a5 =>
                        simp only [Bind.bind, Except.bind]
                        cases h6 : edgesOf vpc with
                        | error e => rfl
                        | ok a6 => rfl

/-- C9 witness. -/
theorem C9_witness :
    (([] : List String).Sorted StrLeP) ∧
    ((([] : List GVAZ).map GVAZ.label).Sorted StrLeP) ∧
    (([] : List ServiceInstance).Pairwise (fun a b => ∀ ka kb,
      cidr_sort a = Except.ok ka → cidr_sort b = Except.ok kb →
      pyListLe ka kb = true)) ∧
    ((toGraphviz emptyVPC).map Prod.fst =
      (toGraphviz (vpcWithRels emptyVPC [])).map Prod.fst) :=
  ⟨C9_deterministic_output.1 emptyVPC [] rfl,
   C9_deterministic_output.2.1 emptyVPC [] rfl,
   C9_deterministic_output.2.2.1 [] [] rfl,
   C9_deterministic_output.2.2.2 emptyVPC [] (List.Perm.refl [])⟩

/-! ## C4: the placement decision tree -/

/-- The places a resource's node statement may appear (claim side). -/
inductive PlacementKind where
  | above
  | topRegion
  | bottomRegion
  | sideRegion
  | zoneTop
  | zoneBottom
  | subnetCluster
deriving DecidableEq, BEq

/-- Modelled from the amended claim: the per-resource placement decision
tree (VPC level is 2, subnet level 12, interface level 14 in `LEVELS`). -/
def claimPlacement (vpc : VPC) (v : ServiceInstance) (l : Nat) :
    Option PlacementKind :=
  if l < 2 then some PlacementKind.above
  else if l < 12 ∧ containedB vpc v.id = false then some PlacementKind.topRegion
  else if BOTTOM_SVC.contains v.service_name = true ∧
      connectedB vpc v.id = true ∧ containedB vpc v.id = false then
    some PlacementKind.bottomRegion
  else if NW_SVC.contains v.service_name = true ∧
      connectedB vpc v.id = true ∧ containedB vpc v.id = false then
    some PlacementKind.sideRegion
  else if single_azB vpc v.id = true ∧ l < 12 then some PlacementKind.zoneTop
  else if single_azB vpc v.id = true ∧ 14 < l then
    some PlacementKind.zoneBottom
  else if single_subnetB vpc v.id = true ∧ connectedB vpc v.id = true then
    some PlacementKind.subnetCluster
  else none

/-- Number of main-region placements of a service (the `if/elif` chain
appends the node to at most one of the four shared lists). -/
def mainPlaceCount (vpc : VPC) (v : ServiceInstance) : Except Unit Nat := do
  let r ← routeMain vpc v
  Except.ok (if r.isSome then 1 else 0)

/-- Number of zone top-placements of a service: one per zone satisfying
`l < end_top and display_in_az` (the condition of the per-zone loop). -/
def azTopPlaceCount (vpc : VPC) (v : ServiceInstance) : Except Unit Nat := do
  let counts ← mapME
    (fun kv => do
      let b ← pyLt (level v.service_name) end_top
      Except.ok (if b && (kv.2.service_ids.contains v.id &&
          single_azB vpc v.id) then (1 : Nat) else 0))
    vpc.azs
  Except.ok counts.sum

/-- Number of zone bottom-placements: `l > end_subnet and display_in_az`. -/
def azBottomPlaceCount (vpc : VPC) (v : ServiceInstance) : Except Unit Nat := do
  let counts ← mapME
    (fun kv => do
      let b ← pyGt (level v.service_name) end_subnet
      Except.ok (if b && (kv.2.service_ids.contains v.id &&
          single_azB vpc v.id) then (1 : Nat) else 0))
    vpc.azs
  Except.ok counts.sum

/-- Number of subnet-cluster placements: one per occurrence of the id in a
zone-attached subnet's membership list passing the
`x in connected and x in single_subnet` filter of the comprehension. -/
def snPlaceCount (vpc : VPC) (v : ServiceInstance) : Nat :=
  (vpc.azs.map (fun kv =>
    (kv.2.subnet_ids.map (fun k =>
      ((subnetsGet vpc k).filter (fun x => x == v.id &&
        (connectedB vpc x && single_subnetB vpc x))).length)).sum)).sum

/-- Total number of placements of a service's node statement. -/
def placedCount (vpc : VPC) (v : ServiceInstance) : Except Unit Nat := do
  let m ← mainPlaceCount vpc v
  let t ← azTopPlaceCount vpc v
  let b ← azBottomPlaceCount vpc v
  Except.ok (m + t + b + snPlaceCount vpc v)

theorem start_vpc_eq : start_vpc = some 2 := rfl

theorem end_top_eq : end_top = some 12 := rfl

theorem end_subnet_eq : end_subnet = some 14 := rfl

/-- Evaluation of `routeMain` on a classified type. -/
theorem routeMain_eval (vpc : VPC) (v : ServiceInstance) (l : Nat)
    (hl : level v.service_name = some l) :
    routeMain vpc v = Except.ok (
      if l < 2 then some Region.route53
      else if l < 12 ∧ containedB vpc v.id = false then some Region.top
      else if BOTTOM_SVC.contains v.service_name = true ∧
          (connectedB vpc v.id = true ∧ containedB vpc v.id = false) then
        some Region.bottom
      else if NW_SVC.contains v.service_name = true ∧
          (connectedB vpc v.id = true ∧ containedB vpc v.id = false) then
        some Region.nw
      else none) := by
  unfold routeMain
  simp only [hl, start_vpc_eq, end_top_eq, pyLt, Bind.bind, Except.bind,
    Bool.and_eq_true, decide_eq_true_eq, Bool.not_eq_true']
  split_ifs <;> rfl

/-- `mapME` over a body that binds a constant `ok` and never raises. -/
theorem mapME_bind_ok {α β γ : Type} (x : γ) (g : γ → α → β) :
    ∀ l : List α,
      mapME (fun a =>
        (Except.ok x : Except Unit γ) >>= fun b => Except.ok (g b a)) l =
      Except.ok (l.map (fun a => g x a)) := by
  intro l
  induction l with
  | nil => rfl
  | cons a as ih =>
      unfold mapME
      rw [ih]
      rfl

/-- Evaluation of the zone top-placement count on a classified type. -/
theorem azTopPlaceCount_eval (vpc : VPC) (v : ServiceInstance) (l : Nat)
    (hl : level v.service_name = some l) :
    azTopPlaceCount vpc v = Except.ok ((vpc.azs.map (fun kv =>
      if decide (l < 12) && (kv.2.service_ids.contains v.id &&
        single_azB vpc v.id) then (1 : Nat) else 0)).sum) := by
  unfold azTopPlaceCount
  simp only [hl, end_top_eq, pyLt]
  rw [mapME_bind_ok (decide (l < 12))
    (fun b (kv : String × AvailabilityZone) =>
      if b && (kv.2.service_ids.contains v.id && single_azB vpc v.id)
      then (1 : Nat) else 0) vpc.azs]
  rfl

/-- Evaluation of the zone bottom-placement count on a classified type. -/
theorem azBottomPlaceCount_eval (vpc : VPC) (v : ServiceInstance) (l : Nat)
    (hl : level v.service_name = some l) :
    azBottomPlaceCount vpc v = Except.ok ((vpc.azs.map (fun kv =>
      if decide (14 < l) && (kv.2.service_ids.contains v.id &&
        single_azB vpc v.id) then (1 : Nat) else 0)).sum) := by
  unfold azBottomPlaceCount
  simp only [hl, end_subnet_eq, pyGt]
  rw [mapME_bind_ok (decide (14 < l))
    (fun b (kv : String × AvailabilityZone) =>
      if b && (kv.2.service_ids.contains v.id && single_azB vpc v.id)
      then (1 : Nat) else 0) vpc.azs]
  rfl

theorem single_az_facts (vpc : VPC) (x : String)
    (h : single_azB vpc x = true) :
    azTally vpc x = 1 ∧ single_subnetB vpc x = false := by
  simpa [single_azB, Bool.and_eq_true, Bool.not_eq_true', beq_iff_eq] using h

theorem single_sn_tally (vpc : VPC) (x : String)
    (h : single_subnetB vpc x = true) : snTally vpc x = 1 := by
  simpa [single_subnetB, beq_iff_eq] using h

theorem not_single_az_of_tally_zero (vpc : VPC) (x : String)
    (h : azTally vpc x = 0) : single_azB vpc x = false := by
  simp [single_azB, h]

theorem not_single_sn_of_tally_zero (vpc : VPC) (x : String)
    (h : snTally vpc x = 0) : single_subnetB vpc x = false := by
  simp [single_subnetB, h]

theorem contained_false_parts (vpc : VPC) (x : String)
    (h : containedB vpc x = false) :
    single_subnetB vpc x = false ∧ single_azB vpc x = false := by
  unfold containedB at h
  simpa [Bool.or_eq_false_iff] using h

theorem sum_map_zero {α : Type} (l : List α) :
    (l.map (fun _ => (0 : Nat))).sum = 0 := by
  induction l <;> simp [*]

/-- A zero tally forces a zero membership-indicator sum. -/
theorem tally_ind_zero (x : String) :
    ∀ l : List (String × AvailabilityZone),
      (l.map (fun kv => kv.2.service_ids.count x)).sum = 0 →
      (l.map (fun kv =>
        if kv.2.service_ids.contains x then (1 : Nat) else 0)).sum = 0 := by
  intro l
  induction l with
  | nil => intro _; rfl
  | cons a as ih =>
      intro h
      simp only [List.map_cons, List.sum_cons] at h ⊢
      have hc : a.2.service_ids.count x = 0 := by omega
      have hs : (as.map (fun kv => kv.2.service_ids.count x)).sum = 0 := by omega
      have hmem : ¬ x ∈ a.2.service_ids := List.count_eq_zero.mp hc
      have hcont : a.2.service_ids.contains x = false := by
        cases hcc : a.2.service_ids.contains x
        · rfl
        · exact absurd (List.elem_iff.mp hcc) hmem
      rw [hcont]
      simp only [Bool.false_eq_true, if_false, Nat.zero_add]
      exact ih hs

/-- A tally of one means exactly one zone contains the id. -/
theorem tally_ind_one (x : String) :
    ∀ l : List (String × AvailabilityZone),
      (l.map (fun kv => kv.2.service_ids.count x)).sum = 1 →
      (l.map (fun kv =>
        if kv.2.service_ids.contains x then (1 : Nat) else 0)).sum = 1 := by
  intro l
  induction l with
  | nil => intro h; simp at h
  | cons a as ih =>
      intro h
      simp only [List.map_cons, List.sum_cons] at h ⊢
      by_cases hc : a.2.service_ids.count x = 0
      · have hs : (as.map (fun kv => kv.2.service_ids.count x)).sum = 1 := by
          omega
        have hmem : ¬ x ∈ a.2.service_ids := List.count_eq_zero.mp hc
        have hcont : a.2.service_ids.contains x = false := by
          cases hcc : a.2.service_ids.contains x
          · rfl
          · exact absurd (List.elem_iff.mp hcc) hmem
        rw [hcont]
        simp only [Bool.false_eq_true, if_false, Nat.zero_add]
        exact ih hs
      · have hs : (as.map (fun kv => kv.2.service_ids.count x)).sum = 0 := by
          omega
        have hmem : x ∈ a.2.service_ids := by
          by_contra hx
          exact hc (List.count_eq_zero.mpr hx)
        have hcont : a.2.service_ids.contains x = true :=
          List.elem_iff.mpr hmem
        rw [hcont]
        have hz := tally_ind_zero x as hs
        rw [hz]
        rfl

/-- Counting occurrences of `a` through a conjunction filter. -/
theorem filter_eq_count (a : String) (q : String → Bool) :
    ∀ l : List String,
      (l.filter (fun x => x == a && q x)).length =
        if q a then l.count a else 0 := by
  intro l
  induction l with
  | nil => cases hq : q a <;> simp [hq]
  | cons b bs ih =>
      by_cases hb : b = a
      · subst hb
        cases hq : q b with
        | false => simp [List.filter_cons, hq, ih, List.count_cons]
        | true => simp [List.filter_cons, hq, ih, List.count_cons]
      · have hb2 : (b == a) = false := beq_eq_false_iff_ne.mpr hb
        simp [List.filter_cons, hb2, ih, List.count_cons]

/-- Evaluation of the subnet-cluster placement count. -/
theorem snPlaceCount_eval (vpc : VPC) (v : ServiceInstance) :
    snPlaceCount vpc v =
      if connectedB vpc v.id && single_subnetB vpc v.id then snTally vpc v.id
      else 0 := by
  unfold snPlaceCount snTally
  have hfe : ∀ L : List String,
      (L.filter (fun x => x == v.id &&
        (connectedB vpc x && single_subnetB vpc x))).length =
      if connectedB vpc v.id && single_subnetB vpc v.id then L.count v.id
      else 0 := fun L =>
    filter_eq_count v.id (fun x => connectedB vpc x && single_subnetB vpc x) L
  simp only [hfe]
  cases hq : connectedB vpc v.id && single_subnetB vpc v.id
  · simp [sum_map_zero]
  · simp

/-- C4 (amended): for a classified resource type, under the well-formedness
assumption that above-VPC resources (levels below the VPC level) are not
listed in zone or subnet memberships, each placement count of the layout
matches the amended decision tree, and the total number of placements is one
when the tree places the resource and zero otherwise.  The amendments forced
by the code: subnet nesting additionally requires the resource to be
connected, and zone nesting only happens when the resource's level is below
the subnet level or above the interface level. -/
theorem C4_placement (vpc : VPC) (v : ServiceInstance) (l : Nat)
    (hl : level v.service_name = some l)
    (habove : l < 2 → azTally vpc v.id = 0 ∧ snTally vpc v.id = 0) :
    mainPlaceCount vpc v = Except.ok
      (if claimPlacement vpc v l = some PlacementKind.above ∨
          claimPlacement vpc v l = some PlacementKind.topRegion ∨
          claimPlacement vpc v l = some PlacementKind.bottomRegion ∨
          claimPlacement vpc v l = some PlacementKind.sideRegion
        then 1 else 0) ∧
    azTopPlaceCount vpc v = Except.ok
      (if claimPlacement vpc v l = some PlacementKind.zoneTop then 1 else 0) ∧
    azBottomPlaceCount vpc v = Except.ok
      (if claimPlacement vpc v l = some PlacementKind.zoneBottom then 1
        else 0) ∧
    snPlaceCount vpc v =
      (if claimPlacement vpc v l = some PlacementKind.subnetCluster then 1
        else 0) ∧
    placedCount vpc v = Except.ok
      (if (claimPlacement vpc v l).isSome then 1 else 0) := by
  have hm := routeMain_eval vpc v l hl
  have ht := azTopPlaceCount_eval vpc v l hl
  have hb := azBottomPlaceCount_eval vpc v l hl
  have hs := snPlaceCount_eval vpc v
  by_cases hc2 : l < 2
  · obtain ⟨haz0, hsn0⟩ := habove hc2
    have hsaF : single_azB vpc v.id = false :=
      not_single_az_of_tally_zero vpc v.id haz0
    have hssF : single_subnetB vpc v.id = false :=
      not_single_sn_of_tally_zero vpc v.id hsn0
    have hcp : claimPlacement vpc v l = some PlacementKind.above := by
      unfold claimPlacement
      rw [if_pos hc2]
    have h1 : mainPlaceCount vpc v = Except.ok 1 := by
      unfold mainPlaceCount
      rw [hm]
      simp only [Bind.bind, Except.bind]
      rw [if_pos hc2]
      rfl
    have h2 : azTopPlaceCount vpc v = Except.ok 0 := by
      rw [ht]
      simp only [hsaF, Bool.and_false, Bool.false_eq_true, if_false,
        sum_map_zero]
    have h3 : azBottomPlaceCount vpc v = Except.ok 0 := by
      rw [hb]
      simp only [hsaF, Bool.and_false, Bool.false_eq_true, if_false,
        sum_map_zero]
    have h4 : snPlaceCount vpc v = 0 := by
      rw [hs, hssF]
      simp
    have h5 : placedCount vpc v = Except.ok 1 := by
      unfold placedCount
      simp only [h1, h2, h3, h4, Bind.bind, Except.bind]
    exact ⟨by rw [h1, hcp]; simp, by rw [h2, hcp]; simp,
      by rw [h3, hcp]; simp, by rw [h4, hcp]; simp, by rw [h5, hcp]; simp⟩
  · by_cases hP2 : l < 12 ∧ containedB vpc v.id = false
    · obtain ⟨hssF, hsaF⟩ := contained_false_parts vpc v.id hP2.2
      have hcp : claimPlacement vpc v l = some PlacementKind.topRegion := by
        unfold claimPlacement
        rw [if_neg hc2, if_pos hP2]
      have h1 : mainPlaceCount vpc v = Except.ok 1 := by
        unfold mainPlaceCount
        rw [hm]
        simp only [Bind.bind, Except.bind]
        rw [if_neg hc2, if_pos hP2]
        rfl
      have h2 : azTopPlaceCount vpc v = Except.ok 0 := by
        rw [ht]
        simp only [hsaF, Bool.and_false, Bool.false_eq_true, if_false,
          sum_map_zero]
      have h3 : azBottomPlaceCount vpc v = Except.ok 0 := by
        rw [hb]
        simp only [hsaF, Bool.and_false, Bool.false_eq_true, if_false,
          sum_map_zero]
      have h4 : snPlaceCount vpc v = 0 := by
        rw [hs, hssF]
        simp
      have h5 : placedCount vpc v = Except.ok 1 := by
        unfold placedCount
        simp only [h1, h2, h3, h4, Bind.bind, Except.bind]
      exact ⟨by rw [h1, hcp]; simp, by rw [h2, hcp]; simp,
        by rw [h3, hcp]; simp, by rw [h4, hcp]; simp, by rw [h5, hcp]; simp⟩
    · by_cases hP3 : BOTTOM_SVC.contains v.service_name = true ∧
          connectedB vpc v.id = true ∧ containedB vpc v.id = false
      · obtain ⟨hssF, hsaF⟩ := contained_false_parts vpc v.id hP3.2.2
        have hcp : claimPlacement vpc v l =
            some PlacementKind.bottomRegion := by
          unfold claimPlacement
          rw [if_neg hc2, if_neg hP2, if_pos hP3]
        have h1 : mainPlaceCount vpc v = Except.ok 1 := by
          unfold mainPlaceCount
          rw [hm]
          simp only [Bind.bind, Except.bind]
          rw [if_neg hc2, if_neg hP2, if_pos hP3]
          rfl
        have h2 : azTopPlaceCount vpc v = Except.ok 0 := by
          rw [ht]
          simp only [hsaF, Bool.and_false, Bool.false_eq_true, if_false,
            sum_map_zero]
        have h3 : azBottomPlaceCount vpc v = Except.ok 0 := by
          rw [hb]
          simp only [hsaF, Bool.and_false, Bool.false_eq_true, if_false,
            sum_map_zero]
        have h4 : snPlaceCount vpc v = 0 := by
          rw [hs, hssF]
          simp
        have h5 : placedCount vpc v = Except.ok 1 := by
          unfold placedCount
          simp only [h1, h2, h3, h4, Bind.bind, Except.bind]
        exact ⟨by rw [h1, hcp]; simp, by rw [h2, hcp]; simp,
          by rw [h3, hcp]; simp, by rw [h4, hcp]; simp, by rw [h5, hcp]; simp⟩
      · by_cases hP4 : NW_SVC.contains v.service_name = true ∧
            connectedB vpc v.id = true ∧ containedB vpc v.id = false
        · obtain ⟨hssF, hsaF⟩ := contained_false_parts vpc v.id hP4.2.2
          have hcp : claimPlacement vpc v l =
              some PlacementKind.sideRegion := by
            unfold claimPlacement
            rw [if_neg hc2, if_neg hP2, if_neg hP3, if_pos hP4]
          have h1 : mainPlaceCount vpc v = Except.ok 1 := by
            unfold mainPlaceCount
            rw [hm]
            simp only [Bind.bind, Except.bind]
            rw [if_neg hc2, if_neg hP2, if_neg hP3, if_pos hP4]
            rfl
          have h2 : azTopPlaceCount vpc v = Except.ok 0 := by
            rw [ht]
            simp only [hsaF, Bool.and_false, Bool.false_eq_true, if_false,
              sum_map_zero]
          have h3 : azBottomPlaceCount vpc v = Except.ok 0 := by
            rw [hb]
            simp only [hsaF, Bool.and_false, Bool.false_eq_true, if_false,
              sum_map_zero]
          have h4 : snPlaceCount vpc v = 0 := by
            rw [hs, hssF]
            simp
          have h5 : placedCount vpc v = Except.ok 1 := by
            unfold placedCount
            simp only [h1, h2, h3, h4, Bind.bind, Except.bind]
          exact ⟨by rw [h1, hcp]; simp, by rw [h2, hcp]; simp,
            by rw [h3, hcp]; simp, by rw [h4, hcp]; simp,
            by rw [h5, hcp]; simp⟩
        · have h1 : mainPlaceCount vpc v = Except.ok 0 := by
            unfold mainPlaceCount
            rw [hm]
            simp only [Bind.bind, Except.bind]
            rw [if_neg hc2, if_neg hP2, if_neg hP3, if_neg hP4]
            rfl
          cases hsa : single_azB vpc v.id with
          | true =>
              obtain ⟨hAT, hssF⟩ := single_az_facts vpc v.id hsa
              have h4 : snPlaceCount vpc v = 0 := by
                rw [hs, hssF]
                simp
              by_cases h12 : l < 12
              · have h14 : ¬ (14 < l) := by omega
                have hcp : claimPlacement vpc v l =
                    some PlacementKind.zoneTop := by
                  unfold claimPlacement
                  rw [if_neg hc2, if_neg hP2, if_neg hP3, if_neg hP4,
                    if_pos ⟨hsa, h12⟩]
                have h2 : azTopPlaceCount vpc v = Except.ok 1 := by
                  rw [ht]
                  have hd : decide (l < 12) = true := decide_eq_true h12
                  simp only [hd, hsa, Bool.and_true, Bool.true_and]
                  exact congrArg Except.ok (tally_ind_one v.id vpc.azs hAT)
                have h3 : azBottomPlaceCount vpc v = Except.ok 0 := by
                  rw [hb]
                  have hd : decide (14 < l) = false := decide_eq_false h14
                  simp only [hd, Bool.false_and, Bool.false_eq_true, if_false,
                    sum_map_zero]
                have h5 : placedCount vpc v = Except.ok 1 := by
                  unfold placedCount
                  simp only [h1, h2, h3, h4, Bind.bind, Except.bind]
                exact ⟨by rw [h1, hcp]; simp, by rw [h2, hcp]; simp,
                  by rw [h3, hcp]; simp, by rw [h4, hcp]; simp,
                  by rw [h5, hcp]; simp⟩
              · have h2 : azTopPlaceCount vpc v = Except.ok 0 := by
                  rw [ht]
                  have hd : decide (l < 12) = false := decide_eq_false h12
                  simp only [hd, Bool.false_and, Bool.false_eq_true, if_false,
                    sum_map_zero]
                by_cases h14 : 14 < l
                · have hcp : claimPlacement vpc v l =
                      some PlacementKind.zoneBottom := by
                    unfold claimPlacement
                    rw [if_neg hc2, if_neg hP2, if_neg hP3, if_neg hP4,
                      if_neg (by intro hx; exact h12 hx.2),
                      if_pos ⟨hsa, h14⟩]
                  have h3 : azBottomPlaceCount vpc v = Except.ok 1 := by
                    rw [hb]
                    have hd : decide (14 < l) = true := decide_eq_true h14
                    simp only [hd, hsa, Bool.and_true, Bool.true_and]
                    exact congrArg Except.ok (tally_ind_one v.id vpc.azs hAT)
                  have h5 : placedCount vpc v = Except.ok 1 := by
                    unfold placedCount
                    simp only [h1, h2, h3, h4, Bind.bind, Except.bind]
                  exact ⟨by rw [h1, hcp]; simp, by rw [h2, hcp]; simp,
                    by rw [h3, hcp]; simp, by rw [h4, hcp]; simp,
                    by rw [h5, hcp]; simp⟩
                · have hcp : claimPlacement vpc v l = none := by
                    unfold claimPlacement
                    rw [if_neg hc2, if_neg hP2, if_neg hP3, if_neg hP4,
                      if_neg (by intro hx; exact h12 hx.2),
                      if_neg (by intro hx; exact h14 hx.2),
                      if_neg (by
                        intro hx
                        rw [hssF] at hx
                        exact Bool.false_ne_true hx.1)]
                  have h3 : azBottomPlaceCount vpc v = Except.ok 0 := by
                    rw [hb]
                    have hd : decide (14 < l) = false := decide_eq_false h14
                    simp only [hd, Bool.false_and, Bool.false_eq_true,
                      if_false, sum_map_zero]
                  have h5 : placedCount vpc v = Except.ok 0 := by
                    unfold placedCount
                    simp only [h1, h2, h3, h4, Bind.bind, Except.bind]
                  exact ⟨by rw [h1, hcp]; simp, by rw [h2, hcp]; simp,
                    by rw [h3, hcp]; simp, by rw [h4, hcp]; simp,
                    by rw [h5, hcp]; simp⟩
          | false =>
              have h2 : azTopPlaceCount vpc v = Except.ok 0 := by
                rw [ht]
                simp only [hsa, Bool.and_false, Bool.false_eq_true, if_false,
                  sum_map_zero]
              have h3 : azBottomPlaceCount vpc v = Except.ok 0 := by
                rw [hb]
                simp only [hsa, Bool.and_false, Bool.false_eq_true, if_false,
                  sum_map_zero]
              cases hss : single_subnetB vpc v.id with
              | true =>
                  cases hK : connectedB vpc v.id with
                  | true =>
                      have hcp : claimPlacement vpc v l =
                          some PlacementKind.subnetCluster := by
                        unfold claimPlacement
                        rw [if_neg hc2, if_neg hP2, if_neg hP3, if_neg hP4,
                          if_neg (by
                            intro hx
                            rw [hsa] at hx
                            exact Bool.false_ne_true hx.1),
                          if_neg (by
                            intro hx
                            rw [hsa] at hx
                            exact Bool.false_ne_true hx.1),
                          if_pos ⟨hss, hK⟩]
                      have h4 : snPlaceCount vpc v = 1 := by
                        rw [hs, hK, hss, single_sn_tally vpc v.id hss]
                        rfl
                      have h5 : placedCount vpc v = Except.ok 1 := by
                        unfold placedCount
                        simp only [h1, h2, h3, h4, Bind.bind, Except.bind]
                      exact ⟨by rw [h1, hcp]; simp, by rw [h2, hcp]; simp,
                        by rw [h3, hcp]; simp, by rw [h4, hcp]; simp,
                        by rw [h5, hcp]; simp⟩
                  | false =>
                      have hcp : claimPlacement vpc v l = none := by
                        unfold claimPlacement
                        rw [if_neg hc2, if_neg hP2, if_neg hP3, if_neg hP4,
                          if_neg (by
                            intro hx
                            rw [hsa] at hx
                            exact Bool.false_ne_true hx.1),
                          if_neg (by
                            intro hx
                            rw [hsa] at hx
                            exact Bool.false_ne_true hx.1),
                          if_neg (by
                            intro hx
                            rw [hK] at hx
                            exact Bool.false_ne_true hx.2)]
                      have h4 : snPlaceCount vpc v = 0 := by
                        rw [hs, hK]
                        rfl
                      have h5 : placedCount vpc v = Except.ok 0 := by
                        unfold placedCount
                        simp only [h1, h2, h3, h4, Bind.bind, Except.bind]
                      exact ⟨by rw [h1, hcp]; simp, by rw [h2, hcp]; simp,
                        by rw [h3, hcp]; simp, by rw [h4, hcp]; simp,
                        by rw [h5, hcp]; simp⟩
              | false =>
                  have hcp : claimPlacement vpc v l = none := by
                    unfold claimPlacement
                    rw [if_neg hc2, if_neg hP2, if_neg hP3, if_neg hP4,
                      if_neg (by
                        intro hx
                        rw [hsa] at hx
                        exact Bool.false_ne_true hx.1),
                      if_neg (by
                        intro hx
                        rw [hsa] at hx
                        exact Bool.false_ne_true hx.1),
                      if_neg (by
                        intro hx
                        rw [hss] at hx
                        exact Bool.false_ne_true hx.1)]
                  have h4 : snPlaceCount vpc v = 0 := by
                    rw [hs, hss]
                    simp
                  have h5 : placedCount vpc v = Except.ok 0 := by
                    unfold placedCount
                    simp only [h1, h2, h3, h4, Bind.bind, Except.bind]
                  exact ⟨by rw [h1, hcp]; simp, by rw [h2, hcp]; simp,
                    by rw [h3, hcp]; simp, by rw [h4, hcp]; simp,
                    by rw [h5, hcp]; simp⟩

/-- C4 counterexample fixture: a network interface confined to one subnet
but referenced by no relation. -/
def eniUSvc : ServiceInstance :=
  ⟨"ENI", "eni-9", "eni-9", "eni-9", "eni-9", "", 0, none, none⟩

def subnSvc9 : ServiceInstance :=
  ⟨"SUBN", "sn-9", "sn-9", "sn-9", "sn-9", "", 0, some "10.0.1.0/24",
   some "Private"⟩

def vpcC4 : VPC :=
  ⟨"vpc-4", "v", "10.0.0.0/16", [("eni-9", eniUSvc), ("sn-9", subnSvc9)], [],
   [("az-a", ⟨[], ["sn-9"]⟩)], [("sn-9", ["eni-9"])]⟩

/-- C4 counterexample: a `single_subnet` but unconnected interface receives
no placement at all — the claim says it would be nested under its owning
subnet cluster. -/
theorem C4_counterexample :
    single_subnetB vpcC4 "eni-9" = true ∧
    connectedB vpcC4 "eni-9" = false ∧
    placedCount vpcC4 eniUSvc = Except.ok 0 := ⟨rfl, rfl, rfl⟩

/-- C4 witness fixture: a connected EC2 instance confined to one subnet. -/
def vpcC4w : VPC :=
  ⟨"vpc-4w", "v", "10.0.0.0/16", [("i-1", ec2Svc)], [("i-1", "sg-9")],
   [("az-a", ⟨[], ["sn-9"]⟩)], [("sn-9", ["i-1"])]⟩

/-- C4 witness. -/
theorem C4_witness :
    mainPlaceCount vpcC4w ec2Svc = Except.ok
      (if claimPlacement vpcC4w ec2Svc 13 = some PlacementKind.above ∨
          claimPlacement vpcC4w ec2Svc 13 = some PlacementKind.topRegion ∨
          claimPlacement vpcC4w ec2Svc 13 = some PlacementKind.bottomRegion ∨
          claimPlacement vpcC4w ec2Svc 13 = some PlacementKind.sideRegion
        then 1 else 0) ∧
    azTopPlaceCount vpcC4w ec2Svc = Except.ok
      (if claimPlacement vpcC4w ec2Svc 13 = some PlacementKind.zoneTop then 1
        else 0) ∧
    azBottomPlaceCount vpcC4w ec2Svc = Except.ok
      (if claimPlacement vpcC4w ec2Svc 13 = some PlacementKind.zoneBottom
        then 1 else 0) ∧
    snPlaceCount vpcC4w ec2Svc =
      (if claimPlacement vpcC4w ec2Svc 13 = some PlacementKind.subnetCluster
        then 1 else 0) ∧
    placedCount vpcC4w ec2Svc = Except.ok
      (if (claimPlacement vpcC4w ec2Svc 13).isSome then 1 else 0) :=
  C4_placement vpcC4w ec2Svc 13 rfl (fun h => absurd h (by decide))

/-! ## C1: the synthesized ENI→RTB pair edges -/

/-- The statement shape produced by `edge` for endpoint ids `sid`, `tid`
and an attribute dict. -/
def edgeStmt (sid tid : String) (attrs : List (String × String)) : String :=
  graphviz_id sid ++ " -> " ++ graphviz_id tid ++ " [" ++ renderAttrs attrs
    ++ "]"

/-- The visible default ENI→RTB edge statement (the relation exists). -/
def pairVisibleStmt (eni rtb : String) : String :=
  edgeStmt eni rtb [("color", "purple3")]

/-- The heavy invisible alignment ENI→RTB edge statement (no relation). -/
def pairAlignStmt (eni rtb : String) : String :=
  edgeStmt eni rtb [("color", "purple3"), ("weight", "10"),
    ("style", "invis")]

/-- Evaluating `edge` on an ENI source and an RTB target: the visible
default statement when the pair relation is stored, the heavy invisible
alignment statement otherwise. -/
theorem edge_eni_rtb (se st : ServiceInstance) (vpc : VPC)
    (hse : se.service_name = "ENI") (hst : st.service_name = "RTB") :
    edge se st vpc = Except.ok (some
      (if vpc.relations.contains (se.id, st.id) = true then
        pairVisibleStmt se.id st.id
      else pairAlignStmt se.id st.id)) := by
  have h1 : level se.service_name = some 14 := by rw [hse]; rfl
  have h2 : level st.service_name = some 16 := by rw [hst]; rfl
  have hsub : se.service_name ≠ "SUBN" := by rw [hse]; decide
  unfold edge
  rw [edgeAttrs_eval se st vpc 14 16 h1 h2 hsub]
  unfold edgeAttrsVal levelStyled
  rw [hse, hst]
  have hn2 : ¬ (0 < se.cost_per_month ∧ ("RTB" : String) = "SG") :=
    fun hx => absurd hx.2 (by decide)
  simp only [if_neg hn2]
  by_cases hc : vpc.relations.contains (se.id, st.id) = true
  · simp only [hc]
    rfl
  · simp only [Bool.not_eq_true] at hc
    simp only [hc]
    rfl

/-- Every statement produced by `edge` has the statement shape over the two
endpoint ids. -/
theorem edge_stmt_shape (s t : ServiceInstance) (vpc : VPC) {u : String}
    (h : edge s t vpc = Except.ok (some u)) :
    ∃ attrs, u = edgeStmt s.id t.id attrs := by
  unfold edge at h
  rcases exceptBind_ok.mp h with ⟨r, _, hok⟩
  cases r with
  | none =>
      simp only [Except.ok.injEq] at hok
      exact Option.noConfusion hok
  | some attrs =>
      simp only [Except.ok.injEq, Option.some.injEq] at hok
      exact ⟨attrs, hok.symm⟩

/-- `graphviz_id` never emits a space. -/
theorem graphviz_id_no_space (s : String) :
    ∀ c ∈ (graphviz_id s).data, c ≠ ' ' := by
  intro c hc
  have hc' : c ∈ s.data.filterMap (fun a =>
      if a = ' ' ∨ a = '-' ∨ a = '/' then some '_'
      else if a = '.' then none else some a) := hc
  rcases List.mem_filterMap.mp hc' with ⟨a, _, hfa⟩
  by_cases h1 : a = ' ' ∨ a = '-' ∨ a = '/'
  · rw [if_pos h1] at hfa
    injection hfa with h3
    subst h3
    decide
  · rw [if_neg h1] at hfa
    by_cases h2 : a = '.'
    · rw [if_pos h2] at hfa
      simp at hfa
    · rw [if_neg h2] at hfa
      injection hfa with h3
      subst h3
      intro hEq
      exact h1 (Or.inl hEq)

/-- Splitting an equality of character lists at a space separator when
neither prefix contains a space. -/
theorem append_space_inj :
    ∀ {a b c d : List Char}, (∀ x ∈ a, x ≠ ' ') → (∀ x ∈ b, x ≠ ' ') →
      a ++ ' ' :: c = b ++ ' ' :: d → a = b ∧ c = d := by
  intro a
  induction a with
  | nil =>
      intro b c d _ hb h
      cases b with
      | nil =>
          rw [List.nil_append, List.nil_append] at h
          injection h with h1 h2
          exact ⟨rfl, h2⟩
      | cons y ys =>
          rw [List.nil_append, List.cons_append] at h
          injection h with h1 h2
          exact absurd h1.symm (hb y (List.mem_cons_self y ys))
  | cons x xs ih =>
      intro b c d ha hb h
      cases b with
      | nil =>
          rw [List.nil_append, List.cons_append] at h
          injection h with h1 h2
          exact absurd h1 (ha x (List.mem_cons_self x xs))
      | cons y ys =>
          rw [List.cons_append, List.cons_append] at h
          injection h with h1 h2
          subst h1
          obtain ⟨e1, e2⟩ := ih (fun z hz => ha z (List.mem_cons_of_mem x hz))
            (fun z hz => hb z (List.mem_cons_of_mem x hz)) h2
          exact ⟨by rw [e1], e2⟩

/-- Two equal edge statements have equal rendered endpoint ids (the ids are
space-free and the separators contain spaces). -/
theorem edgeStmt_inj {a c b d : String} {r1 r2 : List (String × String)}
    (h : edgeStmt a c r1 = edgeStmt b d r2) :
    graphviz_id a = graphviz_id b ∧ graphviz_id c = graphviz_id d := by
  have hdata := congrArg String.data h
  simp only [edgeStmt, String.data_append] at hdata
  have hM : (" -> " : String).data = ' ' :: '-' :: '>' :: ' ' :: [] := rfl
  have hB : (" [" : String).data = ' ' :: '[' :: [] := rfl
  simp only [hM, hB, List.append_assoc, List.cons_append, List.nil_append]
    at hdata
  obtain ⟨e1, h2⟩ := append_space_inj (graphviz_id_no_space a)
    (graphviz_id_no_space b) hdata
  injection h2 with h21 h2
  injection h2 with h22 h2
  injection h2 with h23 h2
  obtain ⟨e2, -⟩ := append_space_inj (graphviz_id_no_space c)
    (graphviz_id_no_space d) h2
  exact ⟨String.ext e1, String.ext e2⟩

/-- The visible and the alignment statement of a pair differ: their
attribute sections have different lengths. -/
theorem pairStmt_ne (a b : String) : pairVisibleStmt a b ≠ pairAlignStmt a b := by
  intro h
  have hlen := congrArg String.length h
  simp only [pairVisibleStmt, pairAlignStmt, edgeStmt, String.length_append]
    at hlen
  have h1 : (renderAttrs [("color", "purple3")]).length = 15 := rfl
  have h2 : (renderAttrs [("color", "purple3"), ("weight", "10"),
      ("style", "invis")]).length = 41 := rfl
  rw [h1, h2] at hlen
  omega

/-- Occurrence count of a statement in one optional raw edge. -/
def cntOpt (c : String) : Option String → Nat
  | some s => if s = c then 1 else 0
  | none => 0

/-- Counting one statement in the compacted output of a `mapME` run, given
the per-generator count. -/
theorem mapME_count {α : Type} (f : α → Except Unit (Option String))
    (c : String) (g : α → Nat) :
    ∀ (l : List α) (ys : List (Option String)), mapME f l = Except.ok ys →
      (∀ a ∈ l, ∀ r, f a = Except.ok r → cntOpt c r = g a) →
      (ys.filterMap id).count c = (l.map g).sum := by
  intro l
  induction l with
  | nil =>
      intro ys h _
      simp only [mapME, Except.ok.injEq] at h
      subst h
      rfl
  | cons a as ih =>
      intro ys h hg
      simp only [mapME] at h
      rcases exceptBind_ok.mp h with ⟨b, hb, h2⟩
      rcases exceptBind_ok.mp h2 with ⟨bs, hbs, h3⟩
      simp only [Except.ok.injEq] at h3
      subst h3
      have hhead := hg a (List.mem_cons_self a as) b hb
      have htail := ih bs hbs (fun p hp r hr => hg p (List.mem_cons_of_mem a hp) r hr)
      cases b with
      | none =>
          have hh0 : 0 = g a := hhead
          have hred : List.filterMap id (none :: bs) = List.filterMap id bs := rfl
          rw [hred]
          simp only [List.map_cons, List.sum_cons]
          omega
      | some s =>
          have hh : (if s = c then 1 else 0) = g a := hhead
          have hred : List.filterMap id (some s :: bs) = s :: List.filterMap id bs := rfl
          rw [hred]
          simp only [List.count_cons, List.map_cons, List.sum_cons]
          by_cases hs : s = c
          · have hbeq : (s == c) = true := beq_iff_eq.mpr hs
            rw [hbeq, if_pos rfl]
            rw [if_pos hs] at hh
            omega
          · have hbeq : (s == c) = false := beq_eq_false_iff_ne.mpr hs
            rw [hbeq, if_neg Bool.false_ne_true]
            rw [if_neg hs] at hh
            omega

/-- Summing an indicator of one value counts its occurrences. -/
theorem sum_map_single {α : Type} [DecidableEq α] [BEq α] [LawfulBEq α]
    (x : α) (K : Nat) (l : List α) :
    (l.map (fun r => if r = x then K else 0)).sum = K * l.count x := by
  induction l with
  | nil => simp
  | cons a l ih =>
      simp only [List.map_cons, List.sum_cons, List.count_cons, ih]
      by_cases h : a = x
      · have hbeq : (a == x) = true := beq_iff_eq.mpr h
        rw [if_pos h, hbeq, if_pos rfl, Nat.mul_add, Nat.mul_one]
        exact Nat.add_comm _ _
      · have hbeq : (a == x) = false := beq_eq_false_iff_ne.mpr h
        rw [if_neg h, hbeq, if_neg Bool.false_ne_true]
        simp

/-- Counting a pair along one row of the cross product. -/
theorem count_pair_map_right (x a b : String) (ys : List String) :
    ((ys.map (fun r => (x, r))).count (a, b)) =
      if x = a then ys.count b else 0 := by
  induction ys with
  | nil => by_cases hx : x = a <;> simp [hx]
  | cons y ys ih =>
      simp only [List.map_cons, List.count_cons, ih]
      by_cases hp : (x, y) = (a, b)
      · have hx : x = a := congrArg Prod.fst hp
        have hy : y = b := congrArg Prod.snd hp
        have hbeq : ((x, y) == (a, b)) = true := beq_iff_eq.mpr hp
        have hyb : (y == b) = true := beq_iff_eq.mpr hy
        rw [hbeq, hyb, if_pos hx, if_pos hx, if_pos rfl]
      · have hbeq : ((x, y) == (a, b)) = false := beq_eq_false_iff_ne.mpr hp
        rw [hbeq, if_neg Bool.false_ne_true, Nat.add_zero]
        by_cases hx : x = a
        · have hy : y ≠ b := fun hyb => hp (by rw [hx, hyb])
          have hyb : (y == b) = false := beq_eq_false_iff_ne.mpr hy
          rw [hyb, if_neg Bool.false_ne_true, Nat.add_zero]
        · rw [if_neg hx, if_neg hx]

/-- Counting a pair in the full cross product. -/
theorem count_pair_flatMap (xs ys : List String) (a b : String) :
    ((xs.flatMap (fun e => ys.map (fun r => (e, r)))).count (a, b)) =
      xs.count a * ys.count b := by
  induction xs with
  | nil => simp
  | cons x xs ih =>
      simp only [List.flatMap_cons, List.count_append, ih, List.count_cons,
        count_pair_map_right]
      by_cases hx : x = a
      · have hbeq : (x == a) = true := beq_iff_eq.mpr hx
        rw [if_pos hx, hbeq, if_pos rfl, Nat.add_mul, Nat.one_mul]
        exact Nat.add_comm _ _
      · have hbeq : (x == a) = false := beq_eq_false_iff_ne.mpr hx
        rw [if_neg hx, hbeq, if_neg Bool.false_ne_true, Nat.add_zero,
          Nat.zero_add]

/-- A defined lookup's key is a stored key. -/
theorem vpcGet_key_mem {vpc : VPC} {k : String} {s : ServiceInstance}
    (h : vpcGet vpc k = some s) : k ∈ vpc.services.map Prod.fst := by
  unfold vpcGet at h
  rcases Option.map_eq_some'.mp h with ⟨p, hp, -⟩
  have hk := List.find?_some hp
  exact List.mem_map.mpr ⟨p, List.mem_of_find?_eq_some hp, eq_of_beq hk⟩

/-- Under the id/key discipline a defined lookup returns a resource whose id
is the key. -/
theorem vpcGet_id {vpc : VPC} (hids : ∀ p ∈ vpc.services, p.2.id = p.1)
    {k : String} {s : ServiceInstance} (h : vpcGet vpc k = some s) :
    s.id = k := by
  unfold vpcGet at h
  rcases Option.map_eq_some'.mp h with ⟨p, hp, hps⟩
  have hk := List.find?_some hp
  have h2 := hids p (List.mem_of_find?_eq_some hp)
  rw [← hps, h2]
  exact eq_of_beq hk

/-- With duplicate-free keys, looking up a stored entry's key finds that
entry. -/
theorem vpcGet_of_mem {vpc : VPC}
    (hkeys : (vpc.services.map Prod.fst).Nodup)
    {p : String × ServiceInstance} (hp : p ∈ vpc.services) :
    vpcGet vpc p.1 = some p.2 := by
  unfold vpcGet
  have hsome : (vpc.services.find? (fun q => q.1 == p.1)).isSome := by
    rw [List.find?_isSome]
    exact ⟨p, hp, by simp⟩
  rcases Option.isSome_iff_exists.mp hsome with ⟨q, hq⟩
  have hqk := List.find?_some hq
  have hqmem : q ∈ vpc.services := List.mem_of_find?_eq_some hq
  have hqp : q = p :=
    List.inj_on_of_nodup_map hkeys hqmem hp (eq_of_beq hqk)
  rw [hq, hqp]
  rfl

/-- Rewriting the guarded id projection of the service map as a key
projection. -/
theorem filterMap_guard_eq (pred : String × ServiceInstance → Bool) :
    ∀ l : List (String × ServiceInstance), (∀ p ∈ l, p.2.id = p.1) →
      l.filterMap (fun p => if pred p then some p.2.id else none) =
        (l.filter pred).map Prod.fst := by
  intro l
  induction l with
  | nil => intro _; rfl
  | cons a l ih =>
      intro hids
      have ha := hids a (List.mem_cons_self a l)
      have ih' := ih (fun p hp => hids p (List.mem_cons_of_mem a hp))
      by_cases hc : pred a = true
      · simp [List.filterMap_cons, List.filter_cons, hc, ha, ih']
      · simp [List.filterMap_cons, List.filter_cons, hc, ih']

/-- A connected, well-keyed tagged resource id occurs exactly once in its
tag's connected-id list. -/
theorem count_connected_ids (vpc : VPC) (tag : String) (x : String)
    (s : ServiceInstance)
    (hkeys : (vpc.services.map Prod.fst).Nodup)
    (hids : ∀ p ∈ vpc.services, p.2.id = p.1)
    (hx : vpcGet vpc x = some s) (hsname : s.service_name = tag)
    (hcx : connectedB vpc x = true) :
    (vpc.services.filterMap (fun p =>
      if p.2.service_name == tag && connectedB vpc p.2.id then some p.2.id
      else none)).count x = 1 := by
  have hEq := filterMap_guard_eq
    (fun p => p.2.service_name == tag && connectedB vpc p.2.id)
    vpc.services hids
  rw [hEq]
  have hnd : ((vpc.services.filter
      (fun p => p.2.service_name == tag && connectedB vpc p.2.id)).map
        Prod.fst).Nodup :=
    List.Nodup.sublist (List.Sublist.map Prod.fst (List.filter_sublist _))
      hkeys
  refine List.count_eq_one_of_mem hnd ?_
  have he' : (vpc.services.find? (fun q => q.1 == x)).map (fun p => p.2) =
      some s := hx
  rcases Option.map_eq_some'.mp he' with ⟨p0, hfind, hp0s⟩
  have hk0 := List.find?_some hfind
  have hp0mem : p0 ∈ vpc.services := List.mem_of_find?_eq_some hfind
  have hp0id : p0.2.id = x := by
    rw [hids p0 hp0mem]
    exact eq_of_beq hk0
  refine List.mem_map.mpr ⟨p0, List.mem_filter.mpr ⟨hp0mem, ?_⟩, eq_of_beq hk0⟩
  show (p0.2.service_name == tag && connectedB vpc p0.2.id) = true
  rw [hp0id, hp0s, hsname, hcx]
  simp

/-- Characterising membership in a tag's connected-id list. -/
theorem connected_id_mem {vpc : VPC} {tag x : String}
    (hx : x ∈ vpc.services.filterMap (fun p =>
      if p.2.service_name == tag && connectedB vpc p.2.id then some p.2.id
      else none)) :
    ∃ p ∈ vpc.services, p.2.id = x ∧ p.2.service_name = tag ∧
      connectedB vpc p.2.id = true := by
  rcases List.mem_filterMap.mp hx with ⟨p, hp, hfp⟩
  have hfp' : (if (p.2.service_name == tag && connectedB vpc p.2.id) = true
      then some p.2.id else none) = some x := hfp
  by_cases hc : (p.2.service_name == tag && connectedB vpc p.2.id) = true
  · rw [if_pos hc] at hfp'
    injection hfp' with h3
    have hc' := hc
    simp only [Bool.and_eq_true] at hc'
    exact ⟨p, hp, h3, eq_of_beq hc'.1, hc'.2⟩
  · rw [if_neg hc] at hfp'
    exact Option.noConfusion hfp'

/-- Turning a stored entry with a known id into a lookup. -/
theorem connected_id_get {vpc : VPC}
    (hkeys : (vpc.services.map Prod.fst).Nodup)
    (hids : ∀ p ∈ vpc.services, p.2.id = p.1)
    {p : String × ServiceInstance} (hp : p ∈ vpc.services) {x : String}
    (hpx : p.2.id = x) : vpcGet vpc x = some p.2 := by
  have h0 := vpcGet_of_mem hkeys hp
  have h1 : p.1 = x := (hids p hp).symm.trans hpx
  rw [h1] at h0
  exact h0

/-- A generator pair other than the distinguished one contributes no
occurrence of any statement over the distinguished ids. -/
theorem other_pair_cnt (vpc : VPC) (eni rtb : String)
    (hids : ∀ p ∈ vpc.services, p.2.id = p.1)
    (hinj : ∀ a ∈ vpc.services.map Prod.fst, ∀ b ∈ vpc.services.map Prod.fst,
      graphviz_id a = graphviz_id b → a = b)
    (heni : eni ∈ vpc.services.map Prod.fst)
    (hrtb : rtb ∈ vpc.services.map Prod.fst)
    (r1 r2 : String) (hne : (r1, r2) ≠ (eni, rtb))
    (s' t' : ServiceInstance)
    (hs' : vpcGet vpc r1 = some s') (ht' : vpcGet vpc r2 = some t')
    (res : Option String) (hres : edge s' t' vpc = Except.ok res)
    (attrs0 : List (String × String)) :
    cntOpt (edgeStmt eni rtb attrs0) res = 0 := by
  cases res with
  | none => rfl
  | some u =>
      rcases edge_stmt_shape s' t' vpc hres with ⟨attrs, hu⟩
      have hne2 : u ≠ edgeStmt eni rtb attrs0 := by
        intro hEq
        rw [hu] at hEq
        rcases edgeStmt_inj hEq with ⟨h1, h2⟩
        have hs'id : s'.id = r1 := vpcGet_id hids hs'
        have ht'id : t'.id = r2 := vpcGet_id hids ht'
        rw [hs'id] at h1
        rw [ht'id] at h2
        have hr1 : r1 = eni := hinj r1 (vpcGet_key_mem hs') eni heni h1
        have hr2 : r2 = rtb := hinj r2 (vpcGet_key_mem ht') rtb hrtb h2
        exact hne (by rw [hr1, hr2])
      show (if u = edgeStmt eni rtb attrs0 then 1 else 0) = 0
      rw [if_neg hne2]

/-- The per-generator count of the two pair statements, for any generator
whose endpoint lookups are defined. -/
theorem gen_cnt (vpc : VPC) (eni rtb : String) (se st : ServiceInstance)
    (hids : ∀ p ∈ vpc.services, p.2.id = p.1)
    (hinj : ∀ a ∈ vpc.services.map Prod.fst, ∀ b ∈ vpc.services.map Prod.fst,
      graphviz_id a = graphviz_id b → a = b)
    (he : vpcGet vpc eni = some se) (hse : se.service_name = "ENI")
    (hr : vpcGet vpc rtb = some st) (hst : st.service_name = "RTB")
    (r : String × String) (s' t' : ServiceInstance)
    (hs' : vpcGet vpc r.1 = some s') (ht' : vpcGet vpc r.2 = some t')
    (res : Option String) (hres : edge s' t' vpc = Except.ok res) :
    cntOpt (pairVisibleStmt eni rtb) res =
      (if r = (eni, rtb) then
        (if vpc.relations.contains (eni, rtb) = true then 1 else 0) else 0) ∧
    cntOpt (pairAlignStmt eni rtb) res =
      (if r = (eni, rtb) then
        (if vpc.relations.contains (eni, rtb) = true then 0 else 1) else 0) := by
  have hseid : se.id = eni := vpcGet_id hids he
  have hstid : st.id = rtb := vpcGet_id hids hr
  have hkeni : eni ∈ vpc.services.map Prod.fst := vpcGet_key_mem he
  have hkrtb : rtb ∈ vpc.services.map Prod.fst := vpcGet_key_mem hr
  by_cases hrp : r = (eni, rtb)
  · rw [if_pos hrp, if_pos hrp]
    have hs'' : s' = se := by
      rw [hrp] at hs'
      have h5 : some se = some s' := he.symm.trans hs'
      injection h5 with h5
      exact h5.symm
    have ht'' : t' = st := by
      rw [hrp] at ht'
      have h5 : some st = some t' := hr.symm.trans ht'
      injection h5 with h5
      exact h5.symm
    rw [hs'', ht''] at hres
    have hpe := edge_eni_rtb se st vpc hse hst
    rw [hseid, hstid] at hpe
    rw [hpe] at hres
    injection hres with hres
    subst hres
    simp only [cntOpt]
    by_cases hc : vpc.relations.contains (eni, rtb) = true
    · rw [if_pos hc, if_pos hc, if_pos hc]
      exact ⟨by rw [if_pos rfl], by rw [if_neg (pairStmt_ne eni rtb)]⟩
    · rw [if_neg hc, if_neg hc, if_neg hc]
      exact ⟨by rw [if_neg (fun hq => pairStmt_ne eni rtb hq.symm)],
             by rw [if_pos rfl]⟩
  · rw [if_neg hrp, if_neg hrp]
    exact ⟨other_pair_cnt vpc eni rtb hids hinj hkeni hkrtb r.1 r.2 hrp
        s' t' hs' ht' res hres [("color", "purple3")],
      other_pair_cnt vpc eni rtb hids hinj hkeni hkrtb r.1 r.2 hrp
        s' t' hs' ht' res hres
        [("color", "purple3"), ("weight", "10"), ("style", "invis")]⟩

/-- The edge generator applied to a pair of resource ids (the body of both
edge loops). -/
def edgeOfPair (vpc : VPC) (r : String × String) : Except Unit (Option String) :=
  match vpcGet vpc r.1, vpcGet vpc r.2 with
  | some s, some t => edge s t vpc
  | _, _ => Except.error ()

/-- The relation pass's generator list. -/
def relPairs (vpc : VPC) : List (String × String) :=
  (List.insertionSort RelLeP vpc.relations.dedup).filter
    (fun r => vpcContains vpc r.1 && vpcContains vpc r.2)

/-- The product pass's generator list. -/
def prodPairs (vpc : VPC) : List (String × String) :=
  (enisOf vpc).flatMap (fun e => (rtbsOf vpc).map (fun r => (e, r)))

/-- `rawRelEdges` as a `mapME` over `relPairs`. -/
theorem rawRelEdges_eq (vpc : VPC) :
    rawRelEdges vpc = mapME (edgeOfPair vpc) (relPairs vpc) := rfl

/-- `rawProdEdges` as a `mapME` over `prodPairs`. -/
theorem rawProdEdges_eq (vpc : VPC) :
    rawProdEdges vpc = mapME (edgeOfPair vpc) (prodPairs vpc) := rfl

/-- Counts are invariant under permutation (for any bool-equality). -/
theorem perm_count_eq {α : Type} [BEq α] {l1 l2 : List α} (h : l1.Perm l2)
    (a : α) : l1.count a = l2.count a := by
  rw [List.count_eq_countP, List.count_eq_countP]
  exact h.countP_eq _

/-- On a duplicate-free list the count of an element is its membership
indicator. -/
theorem count_nodup_mem {α : Type} [BEq α] [LawfulBEq α] (a : α) :
    ∀ l : List α, l.Nodup → l.count a = if a ∈ l then 1 else 0 := by
  intro l
  induction l with
  | nil => intro _; rfl
  | cons b l ih =>
      intro hnd
      rcases List.nodup_cons.mp hnd with ⟨hb, hnd2⟩
      rw [List.count_cons, ih hnd2]
      by_cases hba : b = a
      · subst hba
        rw [beq_self_eq_true, if_pos rfl, if_neg hb,
          if_pos (List.mem_cons_self b l)]
      · have hbeq : (b == a) = false := beq_eq_false_iff_ne.mpr hba
        rw [hbeq, if_neg Bool.false_ne_true, Nat.add_zero]
        have hmem : (a ∈ b :: l) ↔ (a ∈ l) := by
          constructor
          · intro h
            rcases List.mem_cons.mp h with h | h
            · exact absurd h.symm hba
            · exact h
          · exact List.mem_cons_of_mem b
        by_cases hal : a ∈ l
        · rw [if_pos hal, if_pos (hmem.mpr hal)]
        · rw [if_neg hal, if_neg (fun hc => hal (hmem.mp hc))]

/-- Filtering by a predicate the counted element satisfies keeps its
count. -/
theorem count_filter_of_pred {α : Type} [BEq α] [LawfulBEq α] (p : α → Bool)
    (a : α) (h : p a = true) :
    ∀ l : List α, (l.filter p).count a = l.count a := by
  intro l
  induction l with
  | nil => rfl
  | cons b l ih =>
      rw [List.filter_cons]
      by_cases hb : p b = true
      · rw [if_pos hb, List.count_cons, List.count_cons, ih]
      · rw [if_neg hb, List.count_cons, ih]
        have hba : (b == a) = false :=
          beq_eq_false_iff_ne.mpr (fun hba => hb (hba ▸ h))
        rw [hba, if_neg Bool.false_ne_true, Nat.add_zero]

/-- The distinguished pair occurs in the relation pass's generator list
exactly when it is a stored relation (and then exactly once). -/
theorem count_pair_relList (vpc : VPC) (eni rtb : String)
    (hce : vpcContains vpc eni = true) (hcr : vpcContains vpc rtb = true) :
    (relPairs vpc).count (eni, rtb) =
      if vpc.relations.contains (eni, rtb) = true then 1 else 0 := by
  unfold relPairs
  have hpred : (fun r : String × String =>
      vpcContains vpc r.1 && vpcContains vpc r.2) (eni, rtb) = true := by
    show (vpcContains vpc eni && vpcContains vpc rtb) = true
    rw [hce, hcr]
    rfl
  rw [count_filter_of_pred (fun r : String × String =>
    vpcContains vpc r.1 && vpcContains vpc r.2) (eni, rtb) hpred
    (List.insertionSort RelLeP vpc.relations.dedup)]
  rw [perm_count_eq (List.perm_insertionSort RelLeP vpc.relations.dedup)
    (eni, rtb)]
  rw [count_nodup_mem (eni, rtb) vpc.relations.dedup
    (List.nodup_dedup vpc.relations)]
  by_cases hm : (eni, rtb) ∈ vpc.relations
  · rw [if_pos (List.mem_dedup.mpr hm), if_pos (List.elem_iff.mpr hm)]
  · rw [if_neg (fun hc => hm (List.mem_dedup.mp hc)),
      if_neg (fun hc => hm (List.elem_iff.mp hc))]

/-- The distinguished pair occurs exactly once in the product pass's
generator list. -/
theorem count_pair_prodList (vpc : VPC) (eni rtb : String)
    (se st : ServiceInstance)
    (hkeys : (vpc.services.map Prod.fst).Nodup)
    (hids : ∀ p ∈ vpc.services, p.2.id = p.1)
    (he : vpcGet vpc eni = some se) (hse : se.service_name = "ENI")
    (hr : vpcGet vpc rtb = some st) (hst : st.service_name = "RTB")
    (hce : connectedB vpc eni = true) (hcr : connectedB vpc rtb = true) :
    (prodPairs vpc).count (eni, rtb) = 1 := by
  unfold prodPairs
  rw [count_pair_flatMap]
  have hc1 : (enisOf vpc).count eni = 1 :=
    count_connected_ids vpc "ENI" eni se hkeys hids he hse hce
  have hc2 : (rtbsOf vpc).count rtb = 1 :=
    count_connected_ids vpc "RTB" rtb st hkeys hids hr hst hcr
  rw [hc1, hc2]

/-- The relation pass contributes one visible pair statement when the
relation is stored, none otherwise. -/
theorem relCount_vis (vpc : VPC) (eni rtb : String) (se st : ServiceInstance)
    (raw1 : List (Option String))
    (hids : ∀ p ∈ vpc.services, p.2.id = p.1)
    (hinj : ∀ a ∈ vpc.services.map Prod.fst, ∀ b ∈ vpc.services.map Prod.fst,
      graphviz_id a = graphviz_id b → a = b)
    (he : vpcGet vpc eni = some se) (hse : se.service_name = "ENI")
    (hr : vpcGet vpc rtb = some st) (hst : st.service_name = "RTB")
    (hraw1 : rawRelEdges vpc = Except.ok raw1) :
    (raw1.filterMap id).count (pairVisibleStmt eni rtb) =
      if vpc.relations.contains (eni, rtb) = true then 1 else 0 := by
  rw [rawRelEdges_eq] at hraw1
  have hpt : ∀ rp ∈ relPairs vpc, ∀ res,
      edgeOfPair vpc rp = Except.ok res →
      cntOpt (pairVisibleStmt eni rtb) res =
        (if rp = (eni, rtb) then
          (if vpc.relations.contains (eni, rtb) = true then 1 else 0)
         else 0) := by
    intro rp hmem res hres
    have hfil : (vpcContains vpc rp.1 && vpcContains vpc rp.2) = true :=
      (List.mem_filter.mp hmem).2
    simp only [Bool.and_eq_true] at hfil
    rcases (vpcGet_isSome_iff vpc rp.1).mp hfil.1 with ⟨s', hs'⟩
    rcases (vpcGet_isSome_iff vpc rp.2).mp hfil.2 with ⟨t', ht'⟩
    unfold edgeOfPair at hres
    rw [hs', ht'] at hres
    exact (gen_cnt vpc eni rtb se st hids hinj he hse hr hst rp s' t'
      hs' ht' res hres).1
  have hcnt := mapME_count (edgeOfPair vpc) (pairVisibleStmt eni rtb)
    (fun r => if r = (eni, rtb) then
      (if vpc.relations.contains (eni, rtb) = true then 1 else 0) else 0)
    (relPairs vpc) raw1 hraw1 hpt
  rw [hcnt, sum_map_single]
  rw [count_pair_relList vpc eni rtb ((vpcGet_isSome_iff vpc eni).mpr ⟨se, he⟩)
    ((vpcGet_isSome_iff vpc rtb).mpr ⟨st, hr⟩)]
  by_cases hc : vpc.relations.contains (eni, rtb) = true
  · rw [if_pos hc]
  · rw [if_neg hc]

/-- The relation pass never contributes an alignment pair statement. -/
theorem relCount_align (vpc : VPC) (eni rtb : String) (se st : ServiceInstance)
    (raw1 : List (Option String))
    (hids : ∀ p ∈ vpc.services, p.2.id = p.1)
    (hinj : ∀ a ∈ vpc.services.map Prod.fst, ∀ b ∈ vpc.services.map Prod.fst,
      graphviz_id a = graphviz_id b → a = b)
    (he : vpcGet vpc eni = some se) (hse : se.service_name = "ENI")
    (hr : vpcGet vpc rtb = some st) (hst : st.service_name = "RTB")
    (hraw1 : rawRelEdges vpc = Except.ok raw1) :
    (raw1.filterMap id).count (pairAlignStmt eni rtb) = 0 := by
  rw [rawRelEdges_eq] at hraw1
  have hpt : ∀ rp ∈ relPairs vpc, ∀ res,
      edgeOfPair vpc rp = Except.ok res →
      cntOpt (pairAlignStmt eni rtb) res =
        (if rp = (eni, rtb) then
          (if vpc.relations.contains (eni, rtb) = true then 0 else 1)
         else 0) := by
    intro rp hmem res hres
    have hfil : (vpcContains vpc rp.1 && vpcContains vpc rp.2) = true :=
      (List.mem_filter.mp hmem).2
    simp only [Bool.and_eq_true] at hfil
    rcases (vpcGet_isSome_iff vpc rp.1).mp hfil.1 with ⟨s', hs'⟩
    rcases (vpcGet_isSome_iff vpc rp.2).mp hfil.2 with ⟨t', ht'⟩
    unfold edgeOfPair at hres
    rw [hs', ht'] at hres
    exact (gen_cnt vpc eni rtb se st hids hinj he hse hr hst rp s' t'
      hs' ht' res hres).2
  have hcnt := mapME_count (edgeOfPair vpc) (pairAlignStmt eni rtb)
    (fun r => if r = (eni, rtb) then
      (if vpc.relations.contains (eni, rtb) = true then 0 else 1) else 0)
    (relPairs vpc) raw1 hraw1 hpt
  rw [hcnt, sum_map_single]
  rw [count_pair_relList vpc eni rtb ((vpcGet_isSome_iff vpc eni).mpr ⟨se, he⟩)
    ((vpcGet_isSome_iff vpc rtb).mpr ⟨st, hr⟩)]
  by_cases hc : vpc.relations.contains (eni, rtb) = true
  · rw [if_pos hc, if_pos hc]
  · rw [if_neg hc, if_neg hc]

/-- The product pass contributes exactly one pair statement: the visible one
when the relation is stored, the alignment one otherwise. -/
theorem prodCount_vis (vpc : VPC) (eni rtb : String) (se st : ServiceInstance)
    (raw2 : List (Option String))
    (hkeys : (vpc.services.map Prod.fst).Nodup)
    (hids : ∀ p ∈ vpc.services, p.2.id = p.1)
    (hinj : ∀ a ∈ vpc.services.map Prod.fst, ∀ b ∈ vpc.services.map Prod.fst,
      graphviz_id a = graphviz_id b → a = b)
    (he : vpcGet vpc eni = some se) (hse : se.service_name = "ENI")
    (hr : vpcGet vpc rtb = some st) (hst : st.service_name = "RTB")
    (hce : connectedB vpc eni = true) (hcr : connectedB vpc rtb = true)
    (hraw2 : rawProdEdges vpc = Except.ok raw2) :
    (raw2.filterMap id).count (pairVisibleStmt eni rtb) =
      if vpc.relations.contains (eni, rtb) = true then 1 else 0 := by
  rw [rawProdEdges_eq] at hraw2
  have hpt : ∀ pr ∈ prodPairs vpc, ∀ res,
      edgeOfPair vpc pr = Except.ok res →
      cntOpt (pairVisibleStmt eni rtb) res =
        (if pr = (eni, rtb) then
          (if vpc.relations.contains (eni, rtb) = true then 1 else 0)
         else 0) := by
    intro pr hmem res hres
    obtain ⟨a1, a2⟩ := pr
    rcases List.mem_flatMap.mp hmem with ⟨e, hemem, hpr⟩
    rcases List.mem_map.mp hpr with ⟨rt, hrtmem, hpr2⟩
    injection hpr2 with hpe1 hpe2
    subst hpe1
    subst hpe2
    rcases connected_id_mem hemem with ⟨p, hpmem, hpid, hpname, hpconn⟩
    rcases connected_id_mem hrtmem with ⟨q, hqmem, hqid, hqname, hqconn⟩
    have hs' : vpcGet vpc e = some p.2 := connected_id_get hkeys hids hpmem hpid
    have ht' : vpcGet vpc rt = some q.2 := connected_id_get hkeys hids hqmem hqid
    have hres' : edge p.2 q.2 vpc = Except.ok res := by
      unfold edgeOfPair at hres
      dsimp only [] at hres
      rw [hs', ht'] at hres
      exact hres
    exact (gen_cnt vpc eni rtb se st hids hinj he hse hr hst (e, rt) p.2 q.2
      hs' ht' res hres').1
  have hcnt := mapME_count (edgeOfPair vpc) (pairVisibleStmt eni rtb)
    (fun r => if r = (eni, rtb) then
      (if vpc.relations.contains (eni, rtb) = true then 1 else 0) else 0)
    (prodPairs vpc) raw2 hraw2 hpt
  rw [hcnt, sum_map_single,
    count_pair_prodList vpc eni rtb se st hkeys hids he hse hr hst hce hcr,
    Nat.mul_one]

/-- The product pass's alignment-statement count for the pair. -/
theorem prodCount_align (vpc : VPC) (eni rtb : String) (se st : ServiceInstance)
    (raw2 : List (Option String))
    (hkeys : (vpc.services.map Prod.fst).Nodup)
    (hids : ∀ p ∈ vpc.services, p.2.id = p.1)
    (hinj : ∀ a ∈ vpc.services.map Prod.fst, ∀ b ∈ vpc.services.map Prod.fst,
      graphviz_id a = graphviz_id b → a = b)
    (he : vpcGet vpc eni = some se) (hse : se.service_name = "ENI")
    (hr : vpcGet vpc rtb = some st) (hst : st.service_name = "RTB")
    (hce : connectedB vpc eni = true) (hcr : connectedB vpc rtb = true)
    (hraw2 : rawProdEdges vpc = Except.ok raw2) :
    (raw2.filterMap id).count (pairAlignStmt eni rtb) =
      if vpc.relations.contains (eni, rtb) = true then 0 else 1 := by
  rw [rawProdEdges_eq] at hraw2
  have hpt : ∀ pr ∈ prodPairs vpc, ∀ res,
      edgeOfPair vpc pr = Except.ok res →
      cntOpt (pairAlignStmt eni rtb) res =
        (if pr = (eni, rtb) then
          (if vpc.relations.contains (eni, rtb) = true then 0 else 1)
         else 0) := by
    intro pr hmem res hres
    obtain ⟨a1, a2⟩ := pr
    rcases List.mem_flatMap.mp hmem with ⟨e, hemem, hpr⟩
    rcases List.mem_map.mp hpr with ⟨rt, hrtmem, hpr2⟩
    injection hpr2 with hpe1 hpe2
    subst hpe1
    subst hpe2
    rcases connected_id_mem hemem with ⟨p, hpmem, hpid, hpname, hpconn⟩
    rcases connected_id_mem hrtmem with ⟨q, hqmem, hqid, hqname, hqconn⟩
    have hs' : vpcGet vpc e = some p.2 := connected_id_get hkeys hids hpmem hpid
    have ht' : vpcGet vpc rt = some q.2 := connected_id_get hkeys hids hqmem hqid
    have hres' : edge p.2 q.2 vpc = Except.ok res := by
      unfold edgeOfPair at hres
      dsimp only [] at hres
      rw [hs', ht'] at hres
      exact hres
    exact (gen_cnt vpc eni rtb se st hids hinj he hse hr hst (e, rt) p.2 q.2
      hs' ht' res hres').2
  have hcnt := mapME_count (edgeOfPair vpc) (pairAlignStmt eni rtb)
    (fun r => if r = (eni, rtb) then
      (if vpc.relations.contains (eni, rtb) = true then 0 else 1) else 0)
    (prodPairs vpc) raw2 hraw2 hpt
  rw [hcnt, sum_map_single,
    count_pair_prodList vpc eni rtb se st hkeys hids he hse hr hst hce hcr,
    Nat.mul_one]

/-- C1 (amended): for a connected ENI/RTB pair both present in a well-keyed
resource map (duplicate-free keys, each resource's id equal to its key,
rendered ids injective over keys), the successful edge list contains, when
the ENI→RTB relation is stored, exactly two copies of the visible default
pair statement (one from the relation pass and one from the product pass —
not one, as claimed) and no alignment statement; when the relation is
absent it contains exactly one heavy invisible alignment statement and no
visible statement. -/
theorem C1_pair_edges (vpc : VPC) (eni rtb : String)
    (se st : ServiceInstance) (es : List String)
    (hkeys : (vpc.services.map Prod.fst).Nodup)
    (hids : ∀ p ∈ vpc.services, p.2.id = p.1)
    (hinj : ∀ a ∈ vpc.services.map Prod.fst, ∀ b ∈ vpc.services.map Prod.fst,
      graphviz_id a = graphviz_id b → a = b)
    (he : vpcGet vpc eni = some se) (hse : se.service_name = "ENI")
    (hr : vpcGet vpc rtb = some st) (hst : st.service_name = "RTB")
    (hce : connectedB vpc eni = true) (hcr : connectedB vpc rtb = true)
    (hes : edgesOf vpc = Except.ok es) :
    (vpc.relations.contains (eni, rtb) = true →
      es.count (pairVisibleStmt eni rtb) = 2 ∧
      es.count (pairAlignStmt eni rtb) = 0) ∧
    (vpc.relations.contains (eni, rtb) = false →
      es.count (pairVisibleStmt eni rtb) = 0 ∧
      es.count (pairAlignStmt eni rtb) = 1) := by
  unfold edgesOf at hes
  rcases exceptBind_ok.mp hes with ⟨raw1, hraw1, h2⟩
  rcases exceptBind_ok.mp h2 with ⟨raw2, hraw2, h3⟩
  simp only [Except.ok.injEq] at h3
  subst h3
  have hcount : ∀ c : String,
      (List.insertionSort StrLeP ((raw1 ++ raw2).filterMap id)).count c =
        (raw1.filterMap id).count c + (raw2.filterMap id).count c := by
    intro c
    rw [perm_count_eq (List.perm_insertionSort StrLeP
      ((raw1 ++ raw2).filterMap id)) c]
    rw [List.filterMap_append, List.count_append]
  have hv1 := relCount_vis vpc eni rtb se st raw1 hids hinj he hse hr hst hraw1
  have ha1 := relCount_align vpc eni rtb se st raw1 hids hinj he hse hr hst
    hraw1
  have hv2 := prodCount_vis vpc eni rtb se st raw2 hkeys hids hinj he hse hr
    hst hce hcr hraw2
  have ha2 := prodCount_align vpc eni rtb se st raw2 hkeys hids hinj he hse hr
    hst hce hcr hraw2
  constructor
  · intro hc
    rw [hcount, hcount, hv1, ha1, hv2, ha2, if_pos hc, if_pos hc]
    exact ⟨rfl, rfl⟩
  · intro hc
    have hc2 : ¬ (vpc.relations.contains (eni, rtb) = true) := by
      rw [hc]
      exact Bool.false_ne_true
    rw [hcount, hcount, hv1, ha1, hv2, ha2, if_neg hc2, if_neg hc2]
    exact ⟨rfl, rfl⟩

/-- A connected network interface fixture. -/
def eniSvc : ServiceInstance :=
  ⟨"ENI", "eni-1", "eni-1", "eni-1", "eni-1", "", 0, none, none⟩

/-- A connected route table fixture. -/
def rtbSvc : ServiceInstance :=
  ⟨"RTB", "rtb-1", "rtb-1", "rtb-1", "rtb-1", "", 0, none, none⟩

/-- A graph with one ENI, one RTB and the explicit ENI→RTB relation. -/
def vpcC1 : VPC :=
  ⟨"vpc-1", "v", "10.0.0.0/16", [("eni-1", eniSvc), ("rtb-1", rtbSvc)],
   [("eni-1", "rtb-1")], [], []⟩

/-- The edge list rendered for `vpcC1`. -/
def c1Edges : List String :=
  ["eni_1 -> rtb_1 [color=\"purple3\"]",
   "eni_1 -> rtb_1 [color=\"purple3\"]"]

/-- C1 counterexample: with the ENI→RTB relation stored, the rendered edge
list holds the visible pair statement twice (the relation loop and the
product loop each emit it), refuting "exactly one edge statement for that
pair". -/
theorem C1_counterexample :
    vpcC1.relations.contains ("eni-1", "rtb-1") = true ∧
    edgesOf vpcC1 = Except.ok c1Edges ∧
    c1Edges.count (pairVisibleStmt "eni-1" "rtb-1") = 2 :=
  ⟨rfl, rfl, rfl⟩

/-- C1 witness: the amended pair-edge counts at the concrete graph. -/
theorem C1_witness :
    (vpcC1.relations.contains ("eni-1", "rtb-1") = true →
      c1Edges.count (pairVisibleStmt "eni-1" "rtb-1") = 2 ∧
      c1Edges.count (pairAlignStmt "eni-1" "rtb-1") = 0) ∧
    (vpcC1.relations.contains ("eni-1", "rtb-1") = false →
      c1Edges.count (pairVisibleStmt "eni-1" "rtb-1") = 0 ∧
      c1Edges.count (pairAlignStmt "eni-1" "rtb-1") = 1) :=
  C1_pair_edges vpcC1 "eni-1" "rtb-1" eniSvc rtbSvc c1Edges
    (by decide) (by decide) (by decide) rfl rfl rfl rfl rfl rfl rfl
